import Mathlib

/-!
# libwinter: USB MIDI SysEx fragmenting and reassembly

A shallow embedding of `src/wntr_midi_core.c` and theorems about it.

* Bytes (`uint8_t`) and indices (`size_t`) are natural numbers.  The only
  byte arithmetic of the file is the nibble split of `midi_read`, written
  with the same shift and mask as the source.  Indices are not reduced
  modulo the word size: `len + 2` of the fragmenter is taken to be
  representable, and `data_index` of the reassembler grows by at most 3
  per packet read.
* The USB transport (`tud_midi_receive`, `tud_midi_send`) is external.  Its
  receive side is the list of the results of the successive polls; once the
  list is used up every further poll is not-ready.  Its send side is the
  list of the packets handed over, in order.
* The statics `sysex_data_` and `sysex_data_len_` form `SysexState`;
  `sysex_data_` is the array, as a map from index to byte, and the state
  also records the indices of all stores made so far.  The source stores
  through an unchecked index: a store at an index of `SYSEX_BUF_SIZE` or
  more is outside the array, which is undefined behaviour, and the run
  ends there with `Fault.out_of_bounds` instead of a result.
* `while (true)` loops take a bound on the number of iterations.  The
  entry points pass a bound that is shown to be large enough
  (`wntr_midi_send_sysex_eq`, `consume_loop_fuel`): the fragmenter always
  returns, and the reassembler never ends with `Fault.out_of_fuel`.
* `send_loop_trace` is the loop of the fragmenter once more, keeping a
  record of the loop heads and of the calls of `sysex_iterator_next`; it
  sends the packets of `send_loop` (`send_loop_trace_packets`).
* The diagnostic `printf` of the timeout exit is left out.
-/

namespace Winter

/-! ## Constants -/

def SYSEX_BUF_SIZE : Nat := 64
def SYSEX_TIMEOUT : Nat := 100000
def SYSEX_START_BYTE : Nat := 0xF0
def SYSEX_END_BYTE : Nat := 0xF7

/-- Modelled from the spec: the code index "start-or-continue" of
`wntr_midi_core.h` (not among the sources); its value is the one fixed by
the USB MIDI class specification. -/
def MIDI_CODE_INDEX_SYSEX_START_OR_CONTINUE : Nat := 0x4

/-- Modelled from the spec: the code index "end, 1 byte" of
`wntr_midi_core.h` (not among the sources), value fixed by the USB MIDI
class specification. -/
def MIDI_CODE_INDEX_SYSEX_END_ONE_BYTE : Nat := 0x5

/-- Modelled from the spec: the code index "end, 2 bytes" of
`wntr_midi_core.h` (not among the sources), value fixed by the USB MIDI
class specification. -/
def MIDI_CODE_INDEX_SYSEX_END_TWO_BYTE : Nat := 0x6

/-- Modelled from the spec: the code index "end, 3 bytes" of
`wntr_midi_core.h` (not among the sources), value fixed by the USB MIDI
class specification. -/
def MIDI_CODE_INDEX_SYSEX_END_THREE_BYTE : Nat := 0x7

/-! ## Data model -/

/-- A raw transport packet, `uint8_t packet[4]`. -/
structure Packet where
  b0 : Nat
  b1 : Nat
  b2 : Nat
  b3 : Nat
deriving DecidableEq, Repr

/-- Modelled from the spec: `struct WntrMIDIMessage` of `wntr_midi_core.h`
(not among the sources), the MIDI event with the five fields the code
assigns: cable index, code index and three data bytes. -/
structure WntrMIDIMessage where
  cable : Nat
  code_index : Nat
  midi_0 : Nat
  midi_1 : Nat
  midi_2 : Nat
deriving DecidableEq, Repr

/-- The receive side of the transport: the results of the polls still to
come, `none` for not-ready, `some p` for a delivered packet. -/
abbrev Transport := List (Option Packet)

/-- Modelled from the spec: the transport primitive `receive() ->
raw_packet[4] | not-ready` (`tud_midi_receive`, external): a non-blocking
poll that takes the next poll result; an exhausted transport is not-ready. -/
def tud_midi_receive : Transport → Option Packet × Transport
  | [] => (none, [])
  | r :: t => (r, t)

/-- What ends a run of the receive side without a result. -/
inductive Fault where
  | out_of_bounds (index : Nat)
  | out_of_fuel
deriving DecidableEq, Repr

/-- The statics `sysex_data_` and `sysex_data_len_`.  `sysex_data_ i` is the
element `i` of the array, for `i` below `SYSEX_BUF_SIZE`; `stores` lists the
indices stored to so far, oldest first. -/
structure SysexState where
  sysex_data_ : Nat → Nat
  sysex_data_len_ : Nat
  stores : List Nat

/-- The effect of the assignment `sysex_data_[i] = v` for an index inside
the array. -/
def SysexState.write (st : SysexState) (i v : Nat) : SysexState :=
  { st with
    sysex_data_ := fun j => if j = i then v else st.sysex_data_ j
    stores := st.stores ++ [i] }

/-- The assignment `sysex_data_[i] = v`.  The source does not compare `i`
with the size of the array; the comparison here tells the defined stores
from the store outside `uint8_t sysex_data_[SYSEX_BUF_SIZE]`, which is
undefined behaviour: `Fault.out_of_bounds i`. -/
def SysexState.store (st : SysexState) (i v : Nat) : Except Fault SysexState :=
  if i < SYSEX_BUF_SIZE then .ok (st.write i v) else .error (.out_of_bounds i)

/-! ## Receiving -/

/-- The function `midi_read`: poll the transport once; on a packet, decode
it into `msg` and return true, otherwise leave `msg` alone and return
false. -/
def midi_read (t : Transport) (msg : WntrMIDIMessage) :
    Bool × Transport × WntrMIDIMessage :=
  match tud_midi_receive t with
  | (none, t1) => (false, t1, msg)
  | (some packet, t1) =>
    (true, t1,
      { cable := packet.b0 >>> 4 &&& 0xF
        code_index := packet.b0 &&& 0xF
        midi_0 := packet.b1
        midi_1 := packet.b2
        midi_2 := packet.b3 })

/-- The poll loop of `consume_sysex`,
`for (; m < SYSEX_TIMEOUT; m++) { if (midi_read(msg)) break; }`.
The first argument is the number of values of `m` still to try,
`SYSEX_TIMEOUT - m`; the result carries the value of `m` at loop exit. -/
def poll_loop : Nat → Nat → Transport → WntrMIDIMessage →
    Nat × Transport × WntrMIDIMessage
  | 0, m, t, msg => (m, t, msg)
  | left + 1, m, t, msg =>
    match midi_read t msg with
    | (true, t1, msg1) => (m, t1, msg1)
    | (false, t1, msg1) => poll_loop left (m + 1) t1 msg1

/-- The `while (true)` loop of `consume_sysex` and the two exits after it.
The first argument bounds the number of iterations.  A store outside the
array ends the run with its fault. -/
def consume_loop : Nat → Transport → WntrMIDIMessage → SysexState → Nat →
    Except Fault (Transport × WntrMIDIMessage × SysexState)
  | 0, _, _, _, _ => .error .out_of_fuel
  | fuel + 1, t, msg, st, data_index =>
    match poll_loop SYSEX_TIMEOUT 0 t msg with
    | (m, t1, msg1) =>
      if m = SYSEX_TIMEOUT then
        -- timeout_fail
        .ok (t1, msg1, { st with sysex_data_len_ := 0 })
      else if msg1.code_index = MIDI_CODE_INDEX_SYSEX_START_OR_CONTINUE then do
        let st1 ← st.store data_index msg1.midi_0
        let st2 ← st1.store (data_index + 1) msg1.midi_1
        let st3 ← st2.store (data_index + 2) msg1.midi_2
        consume_loop fuel t1 msg1 st3 (data_index + 3)
      else if msg1.code_index = MIDI_CODE_INDEX_SYSEX_END_THREE_BYTE then do
        let st1 ← st.store data_index msg1.midi_0
        let st2 ← st1.store (data_index + 1) msg1.midi_1
        .ok (t1, msg1, { st2 with sysex_data_len_ := data_index + 2 })
      else if msg1.code_index = MIDI_CODE_INDEX_SYSEX_END_TWO_BYTE then do
        let st1 ← st.store data_index msg1.midi_0
        .ok (t1, msg1, { st1 with sysex_data_len_ := data_index + 1 })
      else if msg1.code_index = MIDI_CODE_INDEX_SYSEX_END_ONE_BYTE then
        .ok (t1, msg1, { st with sysex_data_len_ := data_index })
      else
        .ok (t1, msg1, { st with sysex_data_len_ := data_index })

/-- The function `consume_sysex`.  Every iteration of its loop that does
not leave it takes a packet from the transport, so one more iteration than
there are poll results is enough. -/
def consume_sysex (t : Transport) (msg : WntrMIDIMessage) (st : SysexState) :
    Except Fault (Transport × WntrMIDIMessage × SysexState) := do
  let st1 ← st.store 0 msg.midi_1
  let st2 ← st1.store 1 msg.midi_2
  consume_loop (t.length + 1) t msg st2 2

/-- What a call of `wntr_midi_task` leaves behind: its return value, the
rest of the transport, `*msg` and the statics. -/
structure TaskResult where
  ret : Bool
  transport : Transport
  msg : WntrMIDIMessage
  state : SysexState

/-- The function `wntr_midi_task`. -/
def wntr_midi_task (t : Transport) (msg : WntrMIDIMessage) (st : SysexState) :
    Except Fault TaskResult :=
  match midi_read t msg with
  | (false, t1, msg1) => .ok ⟨false, t1, msg1, st⟩
  | (true, t1, msg1) =>
    if msg1.code_index = MIDI_CODE_INDEX_SYSEX_START_OR_CONTINUE then
      match consume_sysex t1 msg1 st with
      | .error fault => .error fault
      | .ok (t2, msg2, st2) =>
        .ok ⟨true, t2,
          { msg2 with
            code_index := MIDI_CODE_INDEX_SYSEX_START_OR_CONTINUE
            midi_0 := 0
            midi_1 := 0
            midi_2 := 0 },
          st2⟩
    else
      .ok ⟨true, t1, msg1, st⟩

/-- The function `wntr_midi_sysex_len`. -/
def wntr_midi_sysex_len (st : SysexState) : Nat := st.sysex_data_len_

/-- The function `wntr_midi_sysex_data`: the array, as the map from index
to byte. -/
def wntr_midi_sysex_data (st : SysexState) : Nat → Nat := st.sysex_data_

/-! ## Sending -/

/-- The function `sysex_iterator_next`: return value, new `*head`, new
`*dst` (whose old value is the last argument).  `data[i]` outside the
payload reads as 0. -/
def sysex_iterator_next (data : List Nat) (len head dst : Nat) : Bool × Nat × Nat :=
  if head = 0 then (true, head + 1, SYSEX_START_BYTE)
  else if head = len + 1 then (true, head + 1, SYSEX_END_BYTE)
  else if head > len + 1 then (false, head, dst)
  else (true, head + 1, data.getD (head - 1) 0)

/-- The function `sysex_iterator_remaining`.  In `size_t` the difference
wraps when `head > len + 2`; the loop of `wntr_midi_send_sysex` never
passes such a `head` (`head` only grows while `remaining` is positive),
and truncated subtraction is used. -/
def sysex_iterator_remaining (len head : Nat) : Nat := len + 2 - head

/-- The `while (true)` loop of `wntr_midi_send_sysex`: the packets handed to
`tud_midi_send`, in order.  The first argument bounds the number of
iterations.  With `remaining = 0` no branch is taken and the loop goes
round again unchanged. -/
def send_loop : Nat → List Nat → Nat → Nat → Option (List Packet)
  | 0, _, _, _ => none
  | fuel + 1, data, len, head =>
    let remaining := sysex_iterator_remaining len head
    if remaining > 3 then
      let (_, head1, p1) := sysex_iterator_next data len head 0
      let (_, head2, p2) := sysex_iterator_next data len head1 0
      let (_, head3, p3) := sysex_iterator_next data len head2 0
      (send_loop fuel data len head3).map
        (fun rest => ⟨MIDI_CODE_INDEX_SYSEX_START_OR_CONTINUE, p1, p2, p3⟩ :: rest)
    else if remaining = 3 then
      let (_, head1, p1) := sysex_iterator_next data len head 0
      let (_, head2, p2) := sysex_iterator_next data len head1 0
      let (_, _, p3) := sysex_iterator_next data len head2 0
      some [⟨MIDI_CODE_INDEX_SYSEX_END_THREE_BYTE, p1, p2, p3⟩]
    else if remaining = 2 then
      let (_, head1, p1) := sysex_iterator_next data len head 0
      let (_, _, p2) := sysex_iterator_next data len head1 0
      some [⟨MIDI_CODE_INDEX_SYSEX_END_TWO_BYTE, p1, p2, 0⟩]
    else if remaining = 1 then
      let (_, _, p1) := sysex_iterator_next data len head 0
      some [⟨MIDI_CODE_INDEX_SYSEX_END_ONE_BYTE, p1, 0, 0⟩]
    else
      send_loop fuel data len head

/-- The function `wntr_midi_send_sysex`.  Every iteration that does not
return advances `head` by 3 towards `len + 2`, so `len + 2` iterations are
enough. -/
def wntr_midi_send_sysex (data : List Nat) (len : Nat) : Option (List Packet) :=
  send_loop (len + 2) data len 0

/-! ## Sending, with a record of what the loop did -/

/-- The index of `data` that a call of `sysex_iterator_next` reads, if it
reads any: the operand `(*head) - 1` of `data[(*head) - 1]`, on the one
path of the function that gets there. -/
def sysex_iterator_next_index (len head : Nat) : Option Nat :=
  if head = 0 then none
  else if head = len + 1 then none
  else if head > len + 1 then none
  else some (head - 1)

/-- One call of `sysex_iterator_next`: `*head` at the call, the return
value, and the index of `data` read, if any. -/
structure NextCall where
  head : Nat
  ret : Bool
  index : Option Nat
deriving DecidableEq, Repr

/-- A run of the loop of `wntr_midi_send_sysex`: the packets sent, the
value of `head` at each loop head, and the calls of `sysex_iterator_next`,
all in order. -/
structure SendTrace where
  packets : List Packet
  heads : List Nat
  calls : List NextCall
deriving DecidableEq, Repr

/-- The loop of `wntr_midi_send_sysex` once more, as `send_loop`, keeping
the record of the run. -/
def send_loop_trace : Nat → List Nat → Nat → Nat → Option SendTrace
  | 0, _, _, _ => none
  | fuel + 1, data, len, head =>
    let remaining := sysex_iterator_remaining len head
    if remaining > 3 then
      let (r1, head1, p1) := sysex_iterator_next data len head 0
      let (r2, head2, p2) := sysex_iterator_next data len head1 0
      let (r3, head3, p3) := sysex_iterator_next data len head2 0
      (send_loop_trace fuel data len head3).map (fun tr =>
        { packets := ⟨MIDI_CODE_INDEX_SYSEX_START_OR_CONTINUE, p1, p2, p3⟩ :: tr.packets
          heads := head :: tr.heads
          calls := ⟨head, r1, sysex_iterator_next_index len head⟩ ::
            ⟨head1, r2, sysex_iterator_next_index len head1⟩ ::
            ⟨head2, r3, sysex_iterator_next_index len head2⟩ :: tr.calls })
    else if remaining = 3 then
      let (r1, head1, p1) := sysex_iterator_next data len head 0
      let (r2, head2, p2) := sysex_iterator_next data len head1 0
      let (r3, _, p3) := sysex_iterator_next data len head2 0
      some
        { packets := [⟨MIDI_CODE_INDEX_SYSEX_END_THREE_BYTE, p1, p2, p3⟩]
          heads := [head]
          calls := [⟨head, r1, sysex_iterator_next_index len head⟩,
            ⟨head1, r2, sysex_iterator_next_index len head1⟩,
            ⟨head2, r3, sysex_iterator_next_index len head2⟩] }
    else if remaining = 2 then
      let (r1, head1, p1) := sysex_iterator_next data len head 0
      let (r2, _, p2) := sysex_iterator_next data len head1 0
      some
        { packets := [⟨MIDI_CODE_INDEX_SYSEX_END_TWO_BYTE, p1, p2, 0⟩]
          heads := [head]
          calls := [⟨head, r1, sysex_iterator_next_index len head⟩,
            ⟨head1, r2, sysex_iterator_next_index len head1⟩] }
    else if remaining = 1 then
      let (r1, _, p1) := sysex_iterator_next data len head 0
      some
        { packets := [⟨MIDI_CODE_INDEX_SYSEX_END_ONE_BYTE, p1, 0, 0⟩]
          heads := [head]
          calls := [⟨head, r1, sysex_iterator_next_index len head⟩] }
    else
      (send_loop_trace fuel data len head).map (fun tr =>
        { tr with heads := head :: tr.heads })

/-- The function `wntr_midi_send_sysex` with the record of its run. -/
def wntr_midi_send_sysex_trace (data : List Nat) (len : Nat) : Option SendTrace :=
  send_loop_trace (len + 2) data len 0

/-! ## Vocabulary of the statements -/

/-- The code index of a raw packet, as `midi_read` extracts it. -/
def Packet.code (p : Packet) : Nat := p.b0 &&& 0xF

/-- The logical bytes a SysEx packet carries, by its code index: three for
start-or-continue and end-3-byte, two for end-2-byte, one for end-1-byte. -/
def Packet.carried (p : Packet) : List Nat :=
  if p.code = MIDI_CODE_INDEX_SYSEX_START_OR_CONTINUE then [p.b1, p.b2, p.b3]
  else if p.code = MIDI_CODE_INDEX_SYSEX_END_THREE_BYTE then [p.b1, p.b2, p.b3]
  else if p.code = MIDI_CODE_INDEX_SYSEX_END_TWO_BYTE then [p.b1, p.b2]
  else if p.code = MIDI_CODE_INDEX_SYSEX_END_ONE_BYTE then [p.b1]
  else []

/-- The first `n` bytes of the reassembly buffer. -/
def SysexState.bytes (st : SysexState) (n : Nat) : List Nat :=
  (List.range n).map (wntr_midi_sysex_data st)

/-- The statics at power-on: zero-initialised, nothing stored yet. -/
def SysexState.zero : SysexState := ⟨fun _ => 0, 0, []⟩

/-- A `*msg` with all fields zero. -/
def WntrMIDIMessage.zero : WntrMIDIMessage := ⟨0, 0, 0, 0, 0⟩

/-- Hand packets sent by one side to the receive side of the other, in
order and with no not-ready poll in between. -/
def deliver (pkts : List Packet) : Transport := pkts.map some

/-- The MIDI event `midi_read` decodes a raw packet into. -/
def Packet.decode (p : Packet) : WntrMIDIMessage :=
  { cable := p.b0 >>> 4 &&& 0xF
    code_index := p.b0 &&& 0xF
    midi_0 := p.b1
    midi_1 := p.b2
    midi_2 := p.b3 }

/-- The effect of consecutive stores `sysex_data_[i] = v0;
sysex_data_[i + 1] = v1; ...` that all fall inside the array. -/
def SysexState.write_all (st : SysexState) (i : Nat) : List Nat → SysexState
  | [] => st
  | v :: vs => (st.write i v).write_all (i + 1) vs

/-- The three data bytes of a packet. -/
def Packet.data3 (p : Packet) : List Nat := [p.b1, p.b2, p.b3]

/-- A run of packets, each arriving after the given number of not-ready
polls. -/
def gapped : List (Nat × Packet) → Transport
  | [] => []
  | (g, p) :: r => List.replicate g none ++ some p :: gapped r

/-- The data bytes of a run of packets, three from each, in arrival
order. -/
def data3_all : List Packet → List Nat
  | [] => []
  | p :: ps => p.b1 :: p.b2 :: p.b3 :: data3_all ps

/-- A run of packets the loop of `consume_sysex` accepts as continuation:
each has code index start-or-continue and arrives within the poll
budget. -/
def accepted (gs : List (Nat × Packet)) : Prop :=
  ∀ x ∈ gs, x.1 < SYSEX_TIMEOUT ∧ x.2.code = MIDI_CODE_INDEX_SYSEX_START_OR_CONTINUE

/-- The logical sequence of the spec (section 4.3): start marker, the payload
bytes, end marker. -/
def logical_sequence (data : List Nat) : List Nat :=
  SYSEX_START_BYTE :: data ++ [SYSEX_END_BYTE]

/-- The packetization of the spec (section 4.3), written from its words: a
logical sequence is cut into windows of three bytes; while more than three
bytes remain the window goes out as a start-or-continue packet, and the
last three, two or one bytes go out as the matching end packet. -/
def packetize : List Nat → List Packet
  | [] => []
  | [a] => [⟨MIDI_CODE_INDEX_SYSEX_END_ONE_BYTE, a, 0, 0⟩]
  | [a, b] => [⟨MIDI_CODE_INDEX_SYSEX_END_TWO_BYTE, a, b, 0⟩]
  | [a, b, c] => [⟨MIDI_CODE_INDEX_SYSEX_END_THREE_BYTE, a, b, c⟩]
  | a :: b :: c :: d :: rest =>
    ⟨MIDI_CODE_INDEX_SYSEX_START_OR_CONTINUE, a, b, c⟩ :: packetize (d :: rest)

/-- The end-framing code index for a logical sequence of `n` bytes:
end-3-byte when `n mod 3 = 0`, end-1-byte when `n mod 3 = 1`, end-2-byte
when `n mod 3 = 2`. -/
def tail_code (n : Nat) : Nat :=
  if n % 3 = 0 then MIDI_CODE_INDEX_SYSEX_END_THREE_BYTE
  else if n % 3 = 1 then MIDI_CODE_INDEX_SYSEX_END_ONE_BYTE
  else MIDI_CODE_INDEX_SYSEX_END_TWO_BYTE

/-- The logical bytes carried by a run of packets, in order. -/
def logical_bytes : List Packet → List Nat
  | [] => []
  | p :: ps => p.carried ++ logical_bytes ps

/-- The data bytes that the loop of `consume_sysex` stores of the packet
that ends it: two of an end-3-byte packet, one of an end-2-byte packet,
none of any other packet. -/
def closing_bytes (p : Packet) : List Nat :=
  if p.code = MIDI_CODE_INDEX_SYSEX_END_THREE_BYTE then [p.b1, p.b2]
  else if p.code = MIDI_CODE_INDEX_SYSEX_END_TWO_BYTE then [p.b1]
  else []

/-- What brings the loop of `consume_sysex` to an end, as it lies on the
transport: a packet with another code index than start-or-continue that
arrives within the poll budget, or `SYSEX_TIMEOUT` not-ready polls in a
row, or a transport that is used up before that (and stays not-ready). -/
def ending (tail : Transport) : Prop :=
  (∃ (g : Nat) (e : Packet) (rest : Transport), g < SYSEX_TIMEOUT ∧
    e.code ≠ MIDI_CODE_INDEX_SYSEX_START_OR_CONTINUE ∧
    tail = List.replicate g none ++ some e :: rest) ∨
  (∃ rest : Transport, tail = List.replicate SYSEX_TIMEOUT none ++ rest) ∨
  (∃ g : Nat, g < SYSEX_TIMEOUT ∧ tail = List.replicate g none)


/-! ## Basic facts about the receive side -/

@[simp] theorem midi_read_nil (msg : WntrMIDIMessage) :
    midi_read [] msg = (false, [], msg) := rfl

@[simp] theorem midi_read_none (t : Transport) (msg : WntrMIDIMessage) :
    midi_read (none :: t) msg = (false, t, msg) := rfl

@[simp] theorem midi_read_some (p : Packet) (t : Transport) (msg : WntrMIDIMessage) :
    midi_read (some p :: t) msg = (true, t, p.decode) := rfl

@[simp] theorem decode_code_index (p : Packet) : p.decode.code_index = p.code := rfl
@[simp] theorem decode_midi_0 (p : Packet) : p.decode.midi_0 = p.b1 := rfl
@[simp] theorem decode_midi_1 (p : Packet) : p.decode.midi_1 = p.b2 := rfl
@[simp] theorem decode_midi_2 (p : Packet) : p.decode.midi_2 = p.b3 := rfl

/-- A packet that arrives after `g` not-ready polls, `g` below the number
of polls left, ends the poll loop with `m` advanced by `g`. -/
theorem poll_loop_gap (g : Nat) : ∀ (left m : Nat) (p : Packet) (t : Transport)
    (msg : WntrMIDIMessage), g < left →
    poll_loop left m (List.replicate g none ++ some p :: t) msg = (m + g, t, p.decode) := by
  induction g with
  | zero =>
    intro left m p t msg h
    obtain ⟨l, rfl⟩ : ∃ l, left = l + 1 := ⟨left - 1, by omega⟩
    simp [poll_loop]
  | succ g ih =>
    intro left m p t msg h
    obtain ⟨l, rfl⟩ : ∃ l, left = l + 1 := ⟨left - 1, by omega⟩
    simp only [List.replicate_succ, List.cons_append, poll_loop, midi_read_none]
    rw [ih l (m + 1) p t msg (by omega)]
    congr 1
    omega

/-- When all the polls left are not-ready the poll loop runs to its bound. -/
theorem poll_loop_timeout (left : Nat) : ∀ (m : Nat) (t : Transport) (msg : WntrMIDIMessage),
    poll_loop left m (List.replicate left none ++ t) msg = (m + left, t, msg) := by
  induction left with
  | zero => intro m t msg; simp [poll_loop]
  | succ l ih =>
    intro m t msg
    simp only [List.replicate_succ, List.cons_append, poll_loop, midi_read_none]
    rw [ih]
    congr 1
    omega

/-- An exhausted transport stays not-ready: the poll loop runs to its
bound. -/
theorem poll_loop_nil (left : Nat) : ∀ (m : Nat) (msg : WntrMIDIMessage),
    poll_loop left m [] msg = (m + left, [], msg) := by
  induction left with
  | zero => intro m msg; simp [poll_loop]
  | succ l ih =>
    intro m msg
    simp only [poll_loop, midi_read_nil]
    rw [ih]
    congr 1
    omega

/-- Polls of a transport that is used up before the poll budget are all
not-ready: the poll loop runs to its bound. -/
theorem poll_loop_idle (g : Nat) : ∀ (left m : Nat) (msg : WntrMIDIMessage), g ≤ left →
    poll_loop left m (List.replicate g none) msg = (m + left, [], msg) := by
  induction g with
  | zero => intro left m msg _; exact poll_loop_nil left m msg
  | succ g ih =>
    intro left m msg h
    obtain ⟨l, rfl⟩ : ∃ l, left = l + 1 := ⟨left - 1, by omega⟩
    simp only [List.replicate_succ, poll_loop, midi_read_none]
    rw [ih l (m + 1) msg (by omega)]
    congr 1
    omega

/-! ## Stores and faults -/

@[simp] theorem ok_bind {α β : Type} (a : α) (f : α → Except Fault β) :
    (Except.ok a >>= f) = f a := rfl

@[simp] theorem error_bind {α β : Type} (e : Fault) (f : α → Except Fault β) :
    ((Except.error e : Except Fault α) >>= f) = Except.error e := rfl

/-- A store inside the array. -/
theorem store_ok (st : SysexState) (i v : Nat) (h : i < SYSEX_BUF_SIZE) :
    st.store i v = .ok (st.write i v) := if_pos h

/-- A store outside the array. -/
theorem store_out_of_bounds (st : SysexState) (i v : Nat) (h : ¬ i < SYSEX_BUF_SIZE) :
    st.store i v = .error (.out_of_bounds i) := if_neg h

/-- One iteration of the loop of `consume_sysex` on a start-or-continue
packet that arrives after `g` not-ready polls, `g` below the poll budget,
when its three bytes fit into the array. -/
theorem consume_loop_continue (fuel g : Nat) (hg : g < SYSEX_TIMEOUT) (p : Packet)
    (t : Transport) (msg : WntrMIDIMessage) (st : SysexState) (data_index : Nat)
    (hp : p.code = MIDI_CODE_INDEX_SYSEX_START_OR_CONTINUE)
    (hcap : data_index + 3 ≤ SYSEX_BUF_SIZE) :
    consume_loop (fuel + 1) (List.replicate g none ++ some p :: t) msg st data_index =
      consume_loop fuel t p.decode (st.write_all data_index p.data3) (data_index + 3) := by
  have h := poll_loop_gap g SYSEX_TIMEOUT 0 p t msg hg
  simp only [Nat.zero_add] at h
  have h0 : ¬ (g = SYSEX_TIMEOUT) := by omega
  simp only [consume_loop, h, h0, if_false, decode_code_index, hp, if_true, decode_midi_0,
    decode_midi_1, decode_midi_2]
  rw [store_ok _ _ _ (by omega), ok_bind, store_ok _ _ _ (by omega), ok_bind,
    store_ok _ _ _ (by omega), ok_bind]
  rfl

/-- One iteration of the loop of `consume_sysex` on a start-or-continue
packet when only two more bytes fit into the array: the store of its third
byte is outside the array. -/
theorem consume_loop_overflow (fuel g : Nat) (hg : g < SYSEX_TIMEOUT) (p : Packet)
    (t : Transport) (msg : WntrMIDIMessage) (st : SysexState) (data_index : Nat)
    (hp : p.code = MIDI_CODE_INDEX_SYSEX_START_OR_CONTINUE)
    (hcap : data_index + 2 = SYSEX_BUF_SIZE) :
    consume_loop (fuel + 1) (List.replicate g none ++ some p :: t) msg st data_index =
      .error (.out_of_bounds SYSEX_BUF_SIZE) := by
  have h := poll_loop_gap g SYSEX_TIMEOUT 0 p t msg hg
  simp only [Nat.zero_add] at h
  have h0 : ¬ (g = SYSEX_TIMEOUT) := by omega
  simp only [consume_loop, h, h0, if_false, decode_code_index, hp, if_true, decode_midi_0,
    decode_midi_1, decode_midi_2]
  rw [store_ok _ _ _ (by omega), ok_bind, store_ok _ _ _ (by omega), ok_bind,
    store_out_of_bounds _ _ _ (by omega), error_bind, hcap]

/-- One iteration of the loop of `consume_sysex` on a packet with another
code index than start-or-continue that arrives after `g` not-ready polls,
`g` below the poll budget, when the bytes stored of it fit into the array:
the exit of the loop. -/
theorem consume_loop_close (fuel g : Nat) (hg : g < SYSEX_TIMEOUT) (p : Packet)
    (t : Transport) (msg : WntrMIDIMessage) (st : SysexState) (data_index : Nat)
    (hp : p.code ≠ MIDI_CODE_INDEX_SYSEX_START_OR_CONTINUE)
    (hcap : data_index + 2 ≤ SYSEX_BUF_SIZE) :
    consume_loop (fuel + 1) (List.replicate g none ++ some p :: t) msg st data_index =
      .ok (t, p.decode,
        { st.write_all data_index (closing_bytes p) with
          sysex_data_len_ := data_index + (closing_bytes p).length }) := by
  have h := poll_loop_gap g SYSEX_TIMEOUT 0 p t msg hg
  simp only [Nat.zero_add] at h
  have h0 : ¬ (g = SYSEX_TIMEOUT) := by omega
  simp only [consume_loop, h, h0, if_false, decode_code_index, hp, decode_midi_0,
    decode_midi_1, ite_self]
  unfold closing_bytes
  by_cases h7 : p.code = MIDI_CODE_INDEX_SYSEX_END_THREE_BYTE
  · rw [if_pos h7, if_pos h7, store_ok _ _ _ (by omega), ok_bind, store_ok _ _ _ (by omega),
      ok_bind]
    rfl
  · rw [if_neg h7, if_neg h7]
    by_cases h6 : p.code = MIDI_CODE_INDEX_SYSEX_END_TWO_BYTE
    · rw [if_pos h6, if_pos h6, store_ok _ _ _ (by omega), ok_bind]
      rfl
    · rw [if_neg h6, if_neg h6]
      rfl

/-- One iteration of the loop of `consume_sysex` when the next
`SYSEX_TIMEOUT` polls are all not-ready: the timeout exit. -/
theorem consume_loop_timeout (fuel : Nat) (t : Transport) (msg : WntrMIDIMessage)
    (st : SysexState) (data_index : Nat) :
    consume_loop (fuel + 1) (List.replicate SYSEX_TIMEOUT none ++ t) msg st data_index =
      .ok (t, msg, { st with sysex_data_len_ := 0 }) := by
  have h := poll_loop_timeout SYSEX_TIMEOUT 0 t msg
  rw [Nat.zero_add] at h
  rw [consume_loop, h]
  exact if_pos rfl

/-- One iteration of the loop of `consume_sysex` when the transport is used
up with fewer than `SYSEX_TIMEOUT` not-ready polls, and so stays
not-ready: the timeout exit. -/
theorem consume_loop_idle (fuel g : Nat) (hg : g < SYSEX_TIMEOUT) (msg : WntrMIDIMessage)
    (st : SysexState) (data_index : Nat) :
    consume_loop (fuel + 1) (List.replicate g none) msg st data_index =
      .ok ([], msg, { st with sysex_data_len_ := 0 }) := by
  have h := poll_loop_idle g SYSEX_TIMEOUT 0 msg (by omega)
  rw [Nat.zero_add] at h
  rw [consume_loop, h]
  exact if_pos rfl

/-- More iterations than needed change nothing. -/
theorem consume_loop_mono (fuel : Nat) : ∀ (t : Transport) (msg : WntrMIDIMessage)
    (st : SysexState) (data_index : Nat)
    (x : Except Fault (Transport × WntrMIDIMessage × SysexState)),
    consume_loop fuel t msg st data_index = x → x ≠ .error .out_of_fuel →
    ∀ n, consume_loop (fuel + n) t msg st data_index = x := by
  induction fuel with
  | zero =>
    intro t msg st di x h hx
    exact absurd h.symm hx
  | succ f ih =>
    intro t msg st di x h hx n
    rw [show f + 1 + n = (f + n) + 1 by omega]
    simp only [consume_loop] at h ⊢
    generalize poll_loop SYSEX_TIMEOUT 0 t msg = y at h ⊢
    obtain ⟨m, t1, msg1⟩ := y
    simp only at h ⊢
    split_ifs at h ⊢
    · exact h
    · cases h1 : st.store di msg1.midi_0 with
      | error e => rw [h1] at h; exact h
      | ok s1 =>
        rw [h1] at h
        rw [ok_bind] at h ⊢
        cases h2 : s1.store (di + 1) msg1.midi_1 with
        | error e => rw [h2] at h; exact h
        | ok s2 =>
          rw [h2] at h
          rw [ok_bind] at h ⊢
          cases h3 : s2.store (di + 2) msg1.midi_2 with
          | error e => rw [h3] at h; exact h
          | ok s3 =>
            rw [h3] at h
            rw [ok_bind] at h ⊢
            exact ih _ _ _ _ _ h hx n
    · exact h
    · exact h
    · exact h
    · exact h

/-! ## Consecutive stores -/

@[simp] theorem write_len (st : SysexState) (i v : Nat) :
    (st.write i v).sysex_data_len_ = st.sysex_data_len_ := rfl

@[simp] theorem write_stores (st : SysexState) (i v : Nat) :
    (st.write i v).stores = st.stores ++ [i] := rfl

@[simp] theorem write_data (st : SysexState) (i v j : Nat) :
    (st.write i v).sysex_data_ j = if j = i then v else st.sysex_data_ j := rfl

@[simp] theorem write_all_len (vs : List Nat) : ∀ (st : SysexState) (i : Nat),
    (st.write_all i vs).sysex_data_len_ = st.sysex_data_len_ := by
  induction vs with
  | nil => intro st i; rfl
  | cons v vs ih => intro st i; simp [SysexState.write_all, ih]

theorem write_all_stores (vs : List Nat) : ∀ (st : SysexState) (i : Nat),
    (st.write_all i vs).stores = st.stores ++ List.range' i vs.length := by
  induction vs with
  | nil => intro st i; simp [SysexState.write_all]
  | cons v vs ih => intro st i; simp [SysexState.write_all, ih, List.range'_succ]

theorem write_all_append (vs ws : List Nat) : ∀ (st : SysexState) (i : Nat),
    st.write_all i (vs ++ ws) = (st.write_all i vs).write_all (i + vs.length) ws := by
  induction vs with
  | nil => intro st i; simp [SysexState.write_all]
  | cons v vs ih =>
    intro st i
    rw [List.cons_append]
    simp only [SysexState.write_all, List.length_cons]
    rw [ih, show i + (vs.length + 1) = i + 1 + vs.length by omega]

/-- Below the first index stored to, the buffer is as before. -/
theorem write_all_data_below (vs : List Nat) : ∀ (st : SysexState) (i j : Nat), j < i →
    (st.write_all i vs).sysex_data_ j = st.sysex_data_ j := by
  induction vs with
  | nil => intro st i j _; rfl
  | cons v vs ih =>
    intro st i j h
    simp only [SysexState.write_all]
    rw [ih _ _ _ (by omega)]
    simp only [write_data]
    rw [if_neg (by omega)]

/-- From the last index stored to onwards, the buffer is as before. -/
theorem write_all_data_above (vs : List Nat) : ∀ (st : SysexState) (i j : Nat),
    i + vs.length ≤ j → (st.write_all i vs).sysex_data_ j = st.sysex_data_ j := by
  induction vs with
  | nil => intro st i j _; rfl
  | cons v vs ih =>
    intro st i j h
    simp only [List.length_cons] at h
    simp only [SysexState.write_all]
    rw [ih _ _ _ (by omega)]
    simp only [write_data]
    rw [if_neg (by omega)]

/-- Reading back what consecutive stores wrote. -/
theorem write_all_data_at (vs : List Nat) : ∀ (st : SysexState) (i k : Nat) (h : k < vs.length),
    (st.write_all i vs).sysex_data_ (i + k) = vs[k] := by
  induction vs with
  | nil => intro st i k h; simp at h
  | cons v vs ih =>
    intro st i k h
    simp only [SysexState.write_all]
    cases k with
    | zero =>
      rw [Nat.add_zero, write_all_data_below _ _ _ _ (by omega)]
      simp
    | succ k =>
      simp only [List.length_cons] at h
      have := ih (st.write i v) (i + 1) k (by omega)
      rw [show i + (k + 1) = i + 1 + k by omega, this]
      simp

/-- The first bytes of the buffer after consecutive stores from index 0
are the bytes stored, whatever the length field is set to. -/
theorem bytes_write_all (vs : List Nat) (st s : SysexState)
    (hs : s.sysex_data_ = (st.write_all 0 vs).sysex_data_) :
    s.bytes vs.length = vs := by
  apply List.ext_getElem
  · simp [SysexState.bytes]
  · intro k h1 h2
    simp only [SysexState.bytes, wntr_midi_sysex_data, List.getElem_map, List.getElem_range, hs]
    have := write_all_data_at vs st 0 k h2
    simpa using this

/-! ## Accepted continuation packets -/

@[simp] theorem data3_all_length (ps : List Packet) : (data3_all ps).length = 3 * ps.length := by
  induction ps with
  | nil => rfl
  | cons p ps ih => simp only [data3_all, List.length_cons, ih]; omega

theorem gapped_length_ge (gs : List (Nat × Packet)) : gs.length ≤ (gapped gs).length := by
  induction gs with
  | nil => simp [gapped]
  | cons x gs ih =>
    obtain ⟨g, p⟩ := x
    simp only [gapped, List.length_append, List.length_cons, List.length_replicate]
    omega

theorem deliver_eq_gapped (ps : List Packet) : deliver ps = gapped (ps.map (fun p => (0, p))) := by
  induction ps with
  | nil => rfl
  | cons p ps ih =>
    simp only [deliver, List.map_cons, gapped, List.replicate_zero, List.nil_append] at ih ⊢
    rw [ih]

/-- The loop of `consume_sysex` over a run of accepted continuation
packets whose bytes fit into the array: they are stored from `data_index`
on, three per packet. -/
theorem consume_loop_accepted (gs : List (Nat × Packet)) (hacc : accepted gs) :
    ∀ (fuel : Nat) (t : Transport) (msg : WntrMIDIMessage) (st : SysexState) (data_index : Nat),
    data_index + 3 * gs.length ≤ SYSEX_BUF_SIZE →
    consume_loop (fuel + gs.length) (gapped gs ++ t) msg st data_index =
      consume_loop fuel t (gs.foldl (fun _ x => x.2.decode) msg)
        (st.write_all data_index (data3_all (gs.map Prod.snd)))
        (data_index + 3 * gs.length) := by
  induction gs with
  | nil => intro fuel t msg st di _; simp [gapped, data3_all, SysexState.write_all]
  | cons x gs ih =>
    intro fuel t msg st di hcap
    obtain ⟨g, p⟩ := x
    have hx := hacc (g, p) (List.mem_cons_self _ _)
    have hrest : accepted gs := fun y hy => hacc y (List.mem_cons_of_mem _ hy)
    simp only [List.length_cons] at hcap
    simp only [gapped, List.length_cons, List.append_assoc, List.cons_append, List.map_cons,
      List.foldl_cons, data3_all]
    rw [show fuel + (gs.length + 1) = (fuel + gs.length) + 1 by omega,
      consume_loop_continue _ g hx.1 p _ _ _ _ hx.2 (by omega), ih hrest _ _ _ _ _ (by omega)]
    simp only [Packet.data3, SysexState.write_all]
    rw [show di + 3 + 3 * gs.length = di + 3 * (gs.length + 1) by omega]

/-- A run of `consume_sysex` over accepted continuation packets whose bytes
fit into the array comes down to one more iteration of its loop on what
follows them, whether that ends in a result or in a store outside the
array. -/
theorem consume_sysex_accepted (gs : List (Nat × Packet)) (hacc : accepted gs)
    (hcap : 2 + 3 * gs.length ≤ SYSEX_BUF_SIZE)
    (t : Transport) (msg : WntrMIDIMessage) (st : SysexState)
    (x : Except Fault (Transport × WntrMIDIMessage × SysexState))
    (h : consume_loop 1 t (gs.foldl (fun _ x => x.2.decode) msg)
      (st.write_all 0 (msg.midi_1 :: msg.midi_2 :: data3_all (gs.map Prod.snd)))
      (2 + 3 * gs.length) = x)
    (hx : x ≠ .error .out_of_fuel) :
    consume_sysex (gapped gs ++ t) msg st = x := by
  have h1 := consume_loop_accepted gs hacc 1 t msg ((st.write 0 msg.midi_1).write 1 msg.midi_2) 2
    hcap
  have h2 : consume_loop (1 + gs.length) (gapped gs ++ t) msg
      ((st.write 0 msg.midi_1).write 1 msg.midi_2) 2 = x := by
    rw [h1]; exact h
  have hlen : gs.length ≤ (gapped gs ++ t).length := by
    have := gapped_length_ge gs
    simp only [List.length_append]
    omega
  have h3 := consume_loop_mono _ _ _ _ _ _ h2 hx ((gapped gs ++ t).length - gs.length)
  unfold consume_sysex
  rw [store_ok _ _ _ (by decide), ok_bind, store_ok _ _ _ (by decide), ok_bind,
    show (gapped gs ++ t).length + 1 = 1 + gs.length + ((gapped gs ++ t).length - gs.length)
    by omega]
  exact h3

theorem accepted_deliver (ps : List Packet)
    (h : ∀ p ∈ ps, p.code = MIDI_CODE_INDEX_SYSEX_START_OR_CONTINUE) :
    accepted (ps.map (fun p => (0, p))) := by
  intro x hx
  obtain ⟨p, hp, rfl⟩ := List.mem_map.1 hx
  exact ⟨show 0 < SYSEX_TIMEOUT by decide, h p hp⟩

theorem map_snd_zero (ps : List Packet) :
    (ps.map (fun p => ((0 : Nat), p))).map Prod.snd = ps := by
  induction ps with
  | nil => rfl
  | cons p ps ih => simp

theorem accepted_strip (gs : List (Nat × Packet)) (hacc : accepted gs) :
    accepted ((gs.map Prod.snd).map (fun p => (0, p))) := by
  apply accepted_deliver
  intro p hp
  obtain ⟨x, hx, rfl⟩ := List.mem_map.1 hp
  exact (hacc x hx).2

/-- The buffer, and the record of stores, after storing `xs` from index 0
and `ys` right behind, whatever the length field is set to. -/
theorem stored_facts (st : SysexState) (xs ys : List Nat) (n len : Nat) (hn : n = xs.length) :
    SysexState.bytes { (st.write_all 0 xs).write_all n ys with sysex_data_len_ := len }
        (n + ys.length) = xs ++ ys ∧
    SysexState.stores { (st.write_all 0 xs).write_all n ys with sysex_data_len_ := len } =
        st.stores ++ List.range (n + ys.length) := by
  subst hn
  constructor
  · have h := bytes_write_all (xs ++ ys) st
      { (st.write_all 0 xs).write_all xs.length ys with sysex_data_len_ := len }
      (by rw [write_all_append, Nat.zero_add])
    rw [List.length_append] at h
    exact h
  · show ((st.write_all 0 xs).write_all xs.length ys).stores = _
    rw [write_all_stores, write_all_stores, List.append_assoc, List.range_eq_range']
    congr 1
    have := @List.range'_append 0 xs.length ys.length 1
    simp only [Nat.zero_add, Nat.one_mul] at this
    rw [this, Nat.add_comm]


/-! ## How a message ends -/

theorem closing_bytes_length (p : Packet) : (closing_bytes p).length ≤ 2 := by
  unfold closing_bytes
  split_ifs <;> simp

/-- The bytes stored of an end packet, by its kind. -/
theorem closing_bytes_of_end (e : Packet) (j : Nat)
    (hend : (j = 0 ∧ e.code = MIDI_CODE_INDEX_SYSEX_END_ONE_BYTE) ∨
      (j = 1 ∧ e.code = MIDI_CODE_INDEX_SYSEX_END_TWO_BYTE) ∨
      (j = 2 ∧ e.code = MIDI_CODE_INDEX_SYSEX_END_THREE_BYTE)) :
    closing_bytes e = [e.b1, e.b2].take j ∧
      e.code ≠ MIDI_CODE_INDEX_SYSEX_START_OR_CONTINUE := by
  unfold closing_bytes
  rcases hend with ⟨rfl, hc⟩ | ⟨rfl, hc⟩ | ⟨rfl, hc⟩
  · rw [hc, if_neg (by decide), if_neg (by decide)]
    exact ⟨rfl, by decide⟩
  · rw [hc, if_neg (by decide), if_pos rfl]
    exact ⟨rfl, by decide⟩
  · rw [hc, if_pos rfl]
    exact ⟨rfl, by decide⟩

/-- The bytes stored of a packet that is neither a continuation nor an end
packet: none. -/
theorem closing_bytes_of_other (p : Packet)
    (hp : p.code ≠ MIDI_CODE_INDEX_SYSEX_END_TWO_BYTE ∧
      p.code ≠ MIDI_CODE_INDEX_SYSEX_END_THREE_BYTE) :
    closing_bytes p = [] := by
  unfold closing_bytes
  rw [if_neg hp.2, if_neg hp.1]

/-- A run of `consume_sysex` over accepted continuation packets that fit
into the array, ended by a packet with another code index. -/
theorem consume_sysex_close (msg : WntrMIDIMessage) (gs : List (Nat × Packet))
    (hacc : accepted gs) (hcap : 2 + 3 * gs.length ≤ SYSEX_BUF_SIZE)
    (g : Nat) (hg : g < SYSEX_TIMEOUT) (e : Packet)
    (he : e.code ≠ MIDI_CODE_INDEX_SYSEX_START_OR_CONTINUE) (rest : Transport)
    (st : SysexState) :
    consume_sysex (gapped gs ++ (List.replicate g none ++ some e :: rest)) msg st =
      .ok (rest, e.decode,
        { (st.write_all 0 (msg.midi_1 :: msg.midi_2 :: data3_all (gs.map Prod.snd))).write_all
            (2 + 3 * gs.length) (closing_bytes e) with
          sysex_data_len_ := 2 + 3 * gs.length + (closing_bytes e).length }) := by
  apply consume_sysex_accepted gs hacc hcap
  · exact consume_loop_close 0 g hg e rest _ _ _ he (by simp only [SYSEX_BUF_SIZE] at hcap ⊢; omega)
  · intro h; cases h

/-- A run of `consume_sysex` over accepted continuation packets that fit
into the array, ended by the timeout. -/
theorem consume_sysex_timeout (msg : WntrMIDIMessage) (gs : List (Nat × Packet))
    (hacc : accepted gs) (hcap : 2 + 3 * gs.length ≤ SYSEX_BUF_SIZE) (rest : Transport)
    (st : SysexState) :
    consume_sysex (gapped gs ++ (List.replicate SYSEX_TIMEOUT none ++ rest)) msg st =
      .ok (rest, gs.foldl (fun _ x => x.2.decode) msg,
        { st.write_all 0 (msg.midi_1 :: msg.midi_2 :: data3_all (gs.map Prod.snd)) with
          sysex_data_len_ := 0 }) := by
  apply consume_sysex_accepted gs hacc hcap
  · exact consume_loop_timeout 0 rest _ _ _
  · intro h; cases h

/-- A run of `consume_sysex` over accepted continuation packets that fit
into the array, after which the transport is used up. -/
theorem consume_sysex_idle (msg : WntrMIDIMessage) (gs : List (Nat × Packet))
    (hacc : accepted gs) (hcap : 2 + 3 * gs.length ≤ SYSEX_BUF_SIZE) (g : Nat)
    (hg : g < SYSEX_TIMEOUT) (st : SysexState) :
    consume_sysex (gapped gs ++ List.replicate g none) msg st =
      .ok ([], gs.foldl (fun _ x => x.2.decode) msg,
        { st.write_all 0 (msg.midi_1 :: msg.midi_2 :: data3_all (gs.map Prod.snd)) with
          sysex_data_len_ := 0 }) := by
  apply consume_sysex_accepted gs hacc hcap
  · exact consume_loop_idle 0 g hg _ _ _
  · intro h; cases h

/-- A run of `consume_sysex` over accepted continuation packets that fill
the array up to its last two bytes, and one more continuation packet: the
third byte of that packet is stored outside the array. -/
theorem consume_sysex_overflow (msg : WntrMIDIMessage) (gs : List (Nat × Packet))
    (hacc : accepted gs) (hfull : 2 + 3 * gs.length + 2 = SYSEX_BUF_SIZE)
    (g : Nat) (hg : g < SYSEX_TIMEOUT) (p : Packet)
    (hp : p.code = MIDI_CODE_INDEX_SYSEX_START_OR_CONTINUE) (rest : Transport)
    (st : SysexState) :
    consume_sysex (gapped gs ++ (List.replicate g none ++ some p :: rest)) msg st =
      .error (.out_of_bounds SYSEX_BUF_SIZE) := by
  apply consume_sysex_accepted gs hacc (by omega)
  · exact consume_loop_overflow 0 g hg p rest _ _ _ hp hfull
  · intro h; cases h

/-- A run of `consume_sysex` over a message with continuation packets that
fit into the array returns, whatever ends the message: the length is 0 or
at least 2, at most `SYSEX_BUF_SIZE`, and the stores are those at the
indices below some `n` within the array. -/
theorem consume_sysex_message (msg : WntrMIDIMessage) (gs : List (Nat × Packet))
    (hacc : accepted gs) (hcap : 2 + 3 * gs.length ≤ SYSEX_BUF_SIZE) (tail : Transport)
    (hend : ending tail) (st : SysexState) :
    ∃ (t1 : Transport) (msg1 : WntrMIDIMessage) (st1 : SysexState) (n : Nat),
      consume_sysex (gapped gs ++ tail) msg st = .ok (t1, msg1, st1) ∧
      (st1.sysex_data_len_ = 0 ∨ 2 ≤ st1.sysex_data_len_) ∧
      st1.sysex_data_len_ ≤ n ∧ n ≤ SYSEX_BUF_SIZE ∧
      st1.stores = st.stores ++ List.range n := by
  have hlen : (msg.midi_1 :: msg.midi_2 :: data3_all (gs.map Prod.snd)).length =
      2 + 3 * gs.length := by
    simp only [List.length_cons, data3_all_length, List.length_map]; omega
  rcases hend with ⟨g, e, rest, hg, he, rfl⟩ | ⟨rest, rfl⟩ | ⟨g, hg, rfl⟩
  · have hcb := closing_bytes_length e
    have hf := stored_facts st (msg.midi_1 :: msg.midi_2 :: data3_all (gs.map Prod.snd))
      (closing_bytes e) (2 + 3 * gs.length) (2 + 3 * gs.length + (closing_bytes e).length)
      hlen.symm
    refine ⟨_, _, _, 2 + 3 * gs.length + (closing_bytes e).length,
      consume_sysex_close msg gs hacc hcap g hg e he rest st, Or.inr ?_, le_refl _, ?_, hf.2⟩
    · show 2 ≤ 2 + 3 * gs.length + (closing_bytes e).length
      omega
    · simp only [SYSEX_BUF_SIZE] at hcap ⊢; omega
  · have hf := stored_facts st (msg.midi_1 :: msg.midi_2 :: data3_all (gs.map Prod.snd))
      [] (2 + 3 * gs.length) 0 hlen.symm
    exact ⟨_, _, _, 2 + 3 * gs.length,
      consume_sysex_timeout msg gs hacc hcap rest st, Or.inl rfl, Nat.zero_le _, hcap, hf.2⟩
  · have hf := stored_facts st (msg.midi_1 :: msg.midi_2 :: data3_all (gs.map Prod.snd))
      [] (2 + 3 * gs.length) 0 hlen.symm
    exact ⟨_, _, _, 2 + 3 * gs.length,
      consume_sysex_idle msg gs hacc hcap g hg st, Or.inl rfl, Nat.zero_le _, hcap, hf.2⟩

/-! ## The task around the reassembly -/

/-- A call of `wntr_midi_task` whose first poll delivers a packet with code
index start-or-continue runs `consume_sysex` and then resets four fields of
`*msg`. -/
theorem wntr_midi_task_start (s : Packet) (t : Transport) (msg : WntrMIDIMessage)
    (st : SysexState) (hs : s.code = MIDI_CODE_INDEX_SYSEX_START_OR_CONTINUE)
    (t2 : Transport) (msg2 : WntrMIDIMessage) (st2 : SysexState)
    (h : consume_sysex t s.decode st = .ok (t2, msg2, st2)) :
    wntr_midi_task (some s :: t) msg st =
      .ok ⟨true, t2,
        { msg2 with
          code_index := MIDI_CODE_INDEX_SYSEX_START_OR_CONTINUE
          midi_0 := 0
          midi_1 := 0
          midi_2 := 0 }, st2⟩ := by
  simp only [wntr_midi_task, midi_read_some, decode_code_index, hs, if_true, h]

/-- A call of `wntr_midi_task` whose reassembly stores outside the array
has no result either. -/
theorem wntr_midi_task_fault (s : Packet) (t : Transport) (msg : WntrMIDIMessage)
    (st : SysexState) (hs : s.code = MIDI_CODE_INDEX_SYSEX_START_OR_CONTINUE)
    (fault : Fault) (h : consume_sysex t s.decode st = .error fault) :
    wntr_midi_task (some s :: t) msg st = .error fault := by
  simp only [wntr_midi_task, midi_read_some, decode_code_index, hs, if_true, h]

/-- A call of `wntr_midi_task` whose first poll is not-ready returns false
and changes neither `*msg` nor the statics. -/
theorem wntr_midi_task_idle (t : Transport) (msg : WntrMIDIMessage) (st : SysexState)
    (h : (tud_midi_receive t).1 = none) :
    wntr_midi_task t msg st = .ok ⟨false, (tud_midi_receive t).2, msg, st⟩ := by
  cases t with
  | nil => rfl
  | cons r t =>
    cases r with
    | none => rfl
    | some p => simp [tud_midi_receive] at h

/-- A call of `wntr_midi_task` whose first poll delivers a packet with
another code index than start-or-continue returns true with the decoded
packet in `*msg`, polls no further and leaves the statics alone. -/
theorem wntr_midi_task_other (p : Packet) (t : Transport) (msg : WntrMIDIMessage)
    (st : SysexState) (hp : p.code ≠ MIDI_CODE_INDEX_SYSEX_START_OR_CONTINUE) :
    wntr_midi_task (some p :: t) msg st = .ok ⟨true, t, p.decode, st⟩ := by
  simp only [wntr_midi_task, midi_read_some, decode_code_index, if_neg hp]

/-! ## The fragmenter and the packetization of the spec -/

theorem logical_sequence_length (data : List Nat) :
    (logical_sequence data).length = data.length + 2 := by
  simp [logical_sequence]

theorem drop_eq_getD_cons (l : List Nat) (i : Nat) (h : i < l.length) :
    l.drop i = l.getD i 0 :: l.drop (i + 1) := by
  rw [List.drop_eq_getElem_cons h]
  congr 1
  simp [List.getD_eq_getElem?_getD, List.getElem?_eq_getElem h]

/-- Inside the logical sequence `sysex_iterator_next` succeeds, yields the
byte at `head` and advances `head` by one. -/
theorem sysex_iterator_next_eq (data : List Nat) (head dst : Nat)
    (h : head < data.length + 2) :
    sysex_iterator_next data data.length head dst =
      (true, head + 1, (logical_sequence data).getD head 0) := by
  unfold sysex_iterator_next logical_sequence
  by_cases h0 : head = 0
  · subst h0; simp
  · rw [if_neg h0]
    by_cases h1 : head = data.length + 1
    · rw [if_pos h1]
      subst h1
      simp [List.getD_eq_getElem?_getD, List.getElem?_append_right]
    · rw [if_neg h1, if_neg (by omega)]
      obtain ⟨k, rfl⟩ : ∃ k, head = k + 1 := ⟨head - 1, by omega⟩
      have hk : k < data.length := by omega
      simp [List.getD_eq_getElem?_getD, List.getElem?_append_left hk]

theorem packetize_cons3 (a b c : Nat) (rest : List Nat) (h : rest ≠ []) :
    packetize (a :: b :: c :: rest) =
      ⟨MIDI_CODE_INDEX_SYSEX_START_OR_CONTINUE, a, b, c⟩ :: packetize rest := by
  cases rest with
  | nil => exact absurd rfl h
  | cons d r => rfl

/-- The loop of `wntr_midi_send_sysex`, entered with `head` inside the
logical sequence and enough iterations allowed, sends the packetization of
the rest of the logical sequence. -/
theorem send_loop_eq (data : List Nat) : ∀ (fuel head : Nat), head < data.length + 2 →
    data.length + 2 - head ≤ fuel →
    send_loop fuel data data.length head =
      some (packetize ((logical_sequence data).drop head)) := by
  intro fuel
  induction fuel with
  | zero => intro head h1 h2; omega
  | succ fuel ih =>
    intro head h1 h2
    have hlen := logical_sequence_length data
    unfold send_loop
    simp only [sysex_iterator_remaining]
    by_cases hgt : data.length + 2 - head > 3
    · rw [if_pos hgt]
      simp only [sysex_iterator_next_eq data head 0 (by omega),
        sysex_iterator_next_eq data (head + 1) 0 (by omega),
        sysex_iterator_next_eq data (head + 1 + 1) 0 (by omega)]
      rw [ih (head + 1 + 1 + 1) (by omega) (by omega)]
      rw [drop_eq_getD_cons _ head (by omega), drop_eq_getD_cons _ (head + 1) (by omega),
        drop_eq_getD_cons _ (head + 1 + 1) (by omega)]
      rw [packetize_cons3]
      · rfl
      · intro hnil
        have := congrArg List.length hnil
        simp only [List.length_drop, List.length_nil] at this
        omega
    · rw [if_neg hgt]
      by_cases h3 : data.length + 2 - head = 3
      · rw [if_pos h3]
        simp only [sysex_iterator_next_eq data head 0 (by omega),
          sysex_iterator_next_eq data (head + 1) 0 (by omega),
          sysex_iterator_next_eq data (head + 1 + 1) 0 (by omega)]
        rw [drop_eq_getD_cons _ head (by omega), drop_eq_getD_cons _ (head + 1) (by omega),
          drop_eq_getD_cons _ (head + 1 + 1) (by omega),
          List.drop_of_length_le (by omega)]
        rfl
      · rw [if_neg h3]
        by_cases h2 : data.length + 2 - head = 2
        · rw [if_pos h2]
          simp only [sysex_iterator_next_eq data head 0 (by omega),
            sysex_iterator_next_eq data (head + 1) 0 (by omega)]
          rw [drop_eq_getD_cons _ head (by omega), drop_eq_getD_cons _ (head + 1) (by omega),
            List.drop_of_length_le (by omega)]
          rfl
        · rw [if_neg h2, if_pos (by omega)]
          simp only [sysex_iterator_next_eq data head 0 (by omega)]
          rw [drop_eq_getD_cons _ head (by omega), List.drop_of_length_le (by omega)]
          rfl

/-- The function `wntr_midi_send_sysex` returns, and sends the
packetization of the logical sequence. -/
theorem wntr_midi_send_sysex_eq (data : List Nat) :
    wntr_midi_send_sysex data data.length = some (packetize (logical_sequence data)) := by
  unfold wntr_midi_send_sysex
  rw [send_loop_eq data _ 0 (by omega) (by omega), List.drop_zero]

/-- The mask of `midi_read` keeps the low nibble. -/
theorem code_eq_mod (p : Packet) : p.code = p.b0 % 16 :=
  Nat.and_pow_two_sub_one_eq_mod p.b0 4

theorem code_mk (c a b d : Nat) (h : c < 16) : Packet.code ⟨c, a, b, d⟩ = c := by
  rw [code_eq_mod]
  exact Nat.mod_eq_of_lt h

theorem code_start (a b c : Nat) :
    Packet.code ⟨MIDI_CODE_INDEX_SYSEX_START_OR_CONTINUE, a, b, c⟩ =
      MIDI_CODE_INDEX_SYSEX_START_OR_CONTINUE := code_mk _ _ _ _ (by decide)

theorem code_end1 (a b c : Nat) :
    Packet.code ⟨MIDI_CODE_INDEX_SYSEX_END_ONE_BYTE, a, b, c⟩ =
      MIDI_CODE_INDEX_SYSEX_END_ONE_BYTE := code_mk _ _ _ _ (by decide)

theorem code_end2 (a b c : Nat) :
    Packet.code ⟨MIDI_CODE_INDEX_SYSEX_END_TWO_BYTE, a, b, c⟩ =
      MIDI_CODE_INDEX_SYSEX_END_TWO_BYTE := code_mk _ _ _ _ (by decide)

theorem code_end3 (a b c : Nat) :
    Packet.code ⟨MIDI_CODE_INDEX_SYSEX_END_THREE_BYTE, a, b, c⟩ =
      MIDI_CODE_INDEX_SYSEX_END_THREE_BYTE := code_mk _ _ _ _ (by decide)

theorem carried_start (a b c : Nat) :
    Packet.carried ⟨MIDI_CODE_INDEX_SYSEX_START_OR_CONTINUE, a, b, c⟩ = [a, b, c] := by
  unfold Packet.carried
  rw [if_pos (code_start a b c)]

theorem carried_end3 (a b c : Nat) :
    Packet.carried ⟨MIDI_CODE_INDEX_SYSEX_END_THREE_BYTE, a, b, c⟩ = [a, b, c] := by
  unfold Packet.carried
  rw [code_end3, if_neg (by decide), if_pos rfl]

theorem carried_end2 (a b c : Nat) :
    Packet.carried ⟨MIDI_CODE_INDEX_SYSEX_END_TWO_BYTE, a, b, c⟩ = [a, b] := by
  unfold Packet.carried
  rw [code_end2, if_neg (by decide), if_neg (by decide), if_pos rfl]

theorem carried_end1 (a b c : Nat) :
    Packet.carried ⟨MIDI_CODE_INDEX_SYSEX_END_ONE_BYTE, a, b, c⟩ = [a] := by
  unfold Packet.carried
  rw [code_end1, if_neg (by decide), if_neg (by decide), if_neg (by decide), if_pos rfl]

/-- The number of packets of a packetization. -/
theorem packetize_length (xs : List Nat) : (packetize xs).length = (xs.length + 2) / 3 := by
  induction xs using packetize.induct with
  | case1 => rfl
  | case2 a => simp [packetize]
  | case3 a b => simp [packetize]
  | case4 a b c => simp [packetize]
  | case5 a b c d rest ih =>
    rw [packetize_cons3 _ _ _ _ (by simp), List.length_cons, ih]
    simp only [List.length_cons]
    omega

/-- The packets of a packetization carry the logical sequence. -/
theorem packetize_logical_bytes (xs : List Nat) : logical_bytes (packetize xs) = xs := by
  induction xs using packetize.induct with
  | case1 => rfl
  | case2 a => simp [packetize, logical_bytes, carried_end1]
  | case3 a b => simp [packetize, logical_bytes, carried_end2]
  | case4 a b c => simp [packetize, logical_bytes, carried_end3]
  | case5 a b c d rest ih =>
    rw [packetize_cons3 _ _ _ _ (by simp), logical_bytes, ih, carried_start]
    rfl

theorem packetize_ne_nil (xs : List Nat) (h : xs ≠ []) : packetize xs ≠ [] := by
  intro hp
  have := congrArg List.length hp
  rw [packetize_length] at this
  cases xs with
  | nil => exact h rfl
  | cons x xs =>
    simp only [List.length_cons, List.length_nil] at this
    omega

/-- All packets of a packetization but the last are start-or-continue
packets. -/
theorem packetize_dropLast (xs : List Nat) :
    ∀ p ∈ (packetize xs).dropLast,
      p.code = MIDI_CODE_INDEX_SYSEX_START_OR_CONTINUE ∧ p.carried.length = 3 := by
  induction xs using packetize.induct with
  | case1 => intro p hp; simp [packetize] at hp
  | case2 a => intro p hp; simp [packetize] at hp
  | case3 a b => intro p hp; simp [packetize] at hp
  | case4 a b c => intro p hp; simp [packetize] at hp
  | case5 a b c d rest ih =>
    intro p hp
    rw [packetize_cons3 _ _ _ _ (by simp),
      List.dropLast_cons_of_ne_nil (packetize_ne_nil _ (by simp))] at hp
    rcases List.mem_cons.1 hp with rfl | hp
    · exact ⟨code_start a b c, by rw [carried_start]; rfl⟩
    · exact ih p hp

/-- The last packet of a packetization is the end packet that matches the
length of the logical sequence. -/
theorem packetize_getLast (xs : List Nat) (hne : xs ≠ []) :
    ∃ last, (packetize xs).getLast? = some last ∧ last.code = tail_code xs.length := by
  induction xs using packetize.induct with
  | case1 => exact absurd rfl hne
  | case2 a => exact ⟨_, rfl, code_end1 a 0 0⟩
  | case3 a b => exact ⟨_, rfl, code_end2 a b 0⟩
  | case4 a b c => exact ⟨_, rfl, (code_end3 a b c).trans (by simp [tail_code])⟩
  | case5 a b c d rest ih =>
    obtain ⟨last, h1, h2⟩ := ih (by simp)
    refine ⟨last, ?_, ?_⟩
    · rw [packetize_cons3 _ _ _ _ (by simp), List.getLast?_cons, h1]
      rfl
    · rw [h2]
      unfold tail_code
      simp only [List.length_cons]
      have : (rest.length + 1 + 1 + 1 + 1) % 3 = (rest.length + 1) % 3 := by omega
      simp only [this]

/-! ## Fragmenting, then reassembling -/

theorem closing_bytes_end1 (a b c : Nat) :
    closing_bytes ⟨MIDI_CODE_INDEX_SYSEX_END_ONE_BYTE, a, b, c⟩ = [] := by
  unfold closing_bytes
  rw [code_end1, if_neg (by decide), if_neg (by decide)]

theorem closing_bytes_end2 (a b c : Nat) :
    closing_bytes ⟨MIDI_CODE_INDEX_SYSEX_END_TWO_BYTE, a, b, c⟩ = [a] := by
  unfold closing_bytes
  rw [code_end2, if_neg (by decide), if_pos rfl]

theorem closing_bytes_end3 (a b c : Nat) :
    closing_bytes ⟨MIDI_CODE_INDEX_SYSEX_END_THREE_BYTE, a, b, c⟩ = [a, b] := by
  unfold closing_bytes
  rw [code_end3, if_pos rfl]

/-- One iteration of the loop of `consume_sysex` on a start-or-continue
packet that is already there. -/
theorem consume_loop_continue0 (fuel : Nat) (p : Packet) (t : Transport)
    (msg : WntrMIDIMessage) (st : SysexState) (data_index : Nat)
    (hp : p.code = MIDI_CODE_INDEX_SYSEX_START_OR_CONTINUE)
    (hcap : data_index + 3 ≤ SYSEX_BUF_SIZE) :
    consume_loop (fuel + 1) (some p :: t) msg st data_index =
      consume_loop fuel t p.decode (st.write_all data_index p.data3) (data_index + 3) :=
  consume_loop_continue fuel 0 (by decide) p t msg st data_index hp hcap

/-- One iteration of the loop of `consume_sysex` on a packet with another
code index that is already there. -/
theorem consume_loop_close0 (fuel : Nat) (p : Packet) (t : Transport)
    (msg : WntrMIDIMessage) (st : SysexState) (data_index : Nat)
    (hp : p.code ≠ MIDI_CODE_INDEX_SYSEX_START_OR_CONTINUE)
    (hcap : data_index + 2 ≤ SYSEX_BUF_SIZE) :
    consume_loop (fuel + 1) (some p :: t) msg st data_index =
      .ok (t, p.decode,
        { st.write_all data_index (closing_bytes p) with
          sysex_data_len_ := data_index + (closing_bytes p).length }) :=
  consume_loop_close fuel 0 (by decide) p t msg st data_index hp hcap

/-- The loop of `consume_sysex` run on the packets the fragmenter makes of
the bytes `xs` followed by the end marker, when `xs` fits into the array
with two bytes to spare: it stores `xs` from `data_index` on, drops the
end marker, and uses up the transport. -/
theorem consume_loop_packetize : ∀ (xs : List Nat) (fuel : Nat) (msg : WntrMIDIMessage)
    (st : SysexState) (data_index : Nat),
    (packetize (xs ++ [SYSEX_END_BYTE])).length ≤ fuel →
    data_index + xs.length + 2 ≤ SYSEX_BUF_SIZE →
    ∃ msg1, consume_loop fuel (deliver (packetize (xs ++ [SYSEX_END_BYTE]))) msg st data_index =
      .ok ([], msg1,
        { st.write_all data_index xs with sysex_data_len_ := data_index + xs.length })
  | [], fuel, msg, st, di, h, hcap => by
    obtain ⟨f, rfl⟩ : ∃ f, fuel = f + 1 := ⟨fuel - 1, by simp [packetize] at h; omega⟩
    refine ⟨Packet.decode ⟨MIDI_CODE_INDEX_SYSEX_END_ONE_BYTE, SYSEX_END_BYTE, 0, 0⟩, ?_⟩
    simp only [List.nil_append, packetize, deliver, List.map_cons, List.map_nil]
    rw [consume_loop_close0 _ _ _ _ _ _ (by rw [code_end1]; decide)
      (by simp only [List.length_nil] at hcap; omega), closing_bytes_end1]
  | [x], fuel, msg, st, di, h, hcap => by
    obtain ⟨f, rfl⟩ : ∃ f, fuel = f + 1 := ⟨fuel - 1, by simp [packetize] at h; omega⟩
    refine ⟨Packet.decode ⟨MIDI_CODE_INDEX_SYSEX_END_TWO_BYTE, x, SYSEX_END_BYTE, 0⟩, ?_⟩
    simp only [List.cons_append, List.nil_append, packetize, deliver, List.map_cons,
      List.map_nil]
    rw [consume_loop_close0 _ _ _ _ _ _ (by rw [code_end2]; decide)
      (by simp only [List.length_cons] at hcap; omega), closing_bytes_end2]
  | [x, y], fuel, msg, st, di, h, hcap => by
    obtain ⟨f, rfl⟩ : ∃ f, fuel = f + 1 := ⟨fuel - 1, by simp [packetize] at h; omega⟩
    refine ⟨Packet.decode ⟨MIDI_CODE_INDEX_SYSEX_END_THREE_BYTE, x, y, SYSEX_END_BYTE⟩, ?_⟩
    simp only [List.cons_append, List.nil_append, packetize, deliver, List.map_cons,
      List.map_nil]
    rw [consume_loop_close0 _ _ _ _ _ _ (by rw [code_end3]; decide)
      (by simp only [List.length_cons] at hcap; omega), closing_bytes_end3]
  | x :: y :: z :: xs, fuel, msg, st, di, h, hcap => by
    have hp : packetize (x :: y :: z :: xs ++ [SYSEX_END_BYTE]) =
        ⟨MIDI_CODE_INDEX_SYSEX_START_OR_CONTINUE, x, y, z⟩ ::
          packetize (xs ++ [SYSEX_END_BYTE]) :=
      packetize_cons3 x y z (xs ++ [SYSEX_END_BYTE]) (by simp)
    rw [hp] at h ⊢
    simp only [List.length_cons] at hcap
    obtain ⟨f, rfl⟩ : ∃ f, fuel = f + 1 := ⟨fuel - 1, by simp at h; omega⟩
    obtain ⟨msg1, ih⟩ := consume_loop_packetize xs f
      (Packet.decode ⟨MIDI_CODE_INDEX_SYSEX_START_OR_CONTINUE, x, y, z⟩)
      (st.write_all di [x, y, z]) (di + 3) (by simpa using h) (by omega)
    refine ⟨msg1, ?_⟩
    simp only [deliver, List.map_cons] at ih ⊢
    rw [consume_loop_continue0 _ _ _ _ _ _ (code_start x y z) (by omega)]
    simp only [Packet.data3]
    rw [ih]
    simp only [SysexState.write_all, List.length_cons]
    rw [show di + 3 + xs.length = di + (xs.length + 1 + 1 + 1) by omega]

/-- Fragmenting a payload of at least two bytes that fits into the array
with two bytes to spare, and handing the packets to `wntr_midi_task`: the
payload is stored from index 0 and the length is set to its length. -/
theorem task_on_fragments (d0 d1 : Nat) (xs : List Nat) (msg : WntrMIDIMessage)
    (st : SysexState) (hcap : 2 + xs.length + 2 ≤ SYSEX_BUF_SIZE) :
    ∃ msg1, wntr_midi_task (deliver (packetize (logical_sequence (d0 :: d1 :: xs)))) msg st =
      .ok ⟨true, [], msg1,
        { (st.write_all 0 [d0, d1]).write_all 2 xs with sysex_data_len_ := 2 + xs.length }⟩ := by
  have hp : packetize (logical_sequence (d0 :: d1 :: xs)) =
      ⟨MIDI_CODE_INDEX_SYSEX_START_OR_CONTINUE, SYSEX_START_BYTE, d0, d1⟩ ::
        packetize (xs ++ [SYSEX_END_BYTE]) :=
    packetize_cons3 SYSEX_START_BYTE d0 d1 (xs ++ [SYSEX_END_BYTE]) (by simp)
  rw [hp]
  obtain ⟨msg1, h⟩ := consume_loop_packetize xs
    ((deliver (packetize (xs ++ [SYSEX_END_BYTE]))).length + 1)
    (Packet.decode ⟨MIDI_CODE_INDEX_SYSEX_START_OR_CONTINUE, SYSEX_START_BYTE, d0, d1⟩)
    (st.write_all 0 [d0, d1]) 2 (by simp [deliver]) hcap
  have h2 : consume_sysex (deliver (packetize (xs ++ [SYSEX_END_BYTE])))
      (Packet.decode ⟨MIDI_CODE_INDEX_SYSEX_START_OR_CONTINUE, SYSEX_START_BYTE, d0, d1⟩) st =
      .ok ([], msg1,
        { (st.write_all 0 [d0, d1]).write_all 2 xs with sysex_data_len_ := 2 + xs.length }) := by
    unfold consume_sysex
    rw [store_ok _ _ _ (by decide), ok_bind, store_ok _ _ _ (by decide), ok_bind]
    exact h
  exact ⟨_, wntr_midi_task_start _ _ msg st (code_start _ _ _) [] msg1 _ h2⟩

/-! ## The run of the fragmenter loop -/

/-- The loop with the record sends the packets of the loop without. -/
theorem send_loop_trace_packets (fuel : Nat) : ∀ (data : List Nat) (len head : Nat),
    (send_loop_trace fuel data len head).map SendTrace.packets =
      send_loop fuel data len head := by
  induction fuel with
  | zero => intro data len head; rfl
  | succ f ih =>
    intro data len head
    unfold send_loop send_loop_trace
    simp only []
    split_ifs
    · simp only [Option.map_map, ← ih]
      rfl
    · rfl
    · rfl
    · rfl
    · simp only [Option.map_map, ← ih]
      rfl

/-- Inside the logical sequence a call of `sysex_iterator_next` returns true
and advances `*head` by one, whatever the payload is. -/
theorem sysex_iterator_next_ok (data : List Nat) (len head dst : Nat) (h : head < len + 2) :
    ∃ v, sysex_iterator_next data len head dst = (true, head + 1, v) := by
  unfold sysex_iterator_next
  by_cases h0 : head = 0
  · rw [if_pos h0]; exact ⟨_, rfl⟩
  · rw [if_neg h0]
    by_cases h1 : head = len + 1
    · rw [if_pos h1]; exact ⟨_, rfl⟩
    · rw [if_neg h1, if_neg (by omega)]; exact ⟨_, rfl⟩

/-- A call of `sysex_iterator_next` that reads `data` reads it at
`*head - 1`, which is below `len`. -/
theorem sysex_iterator_next_index_lt (len head i : Nat)
    (h : sysex_iterator_next_index len head = some i) : i = head - 1 ∧ i < len := by
  unfold sysex_iterator_next_index at h
  by_cases h0 : head = 0
  · rw [if_pos h0] at h; cases h
  · rw [if_neg h0] at h
    by_cases h1 : head = len + 1
    · rw [if_pos h1] at h; cases h
    · rw [if_neg h1] at h
      by_cases h2 : head > len + 1
      · rw [if_pos h2] at h; cases h
      · rw [if_neg h2] at h
        cases h
        exact ⟨rfl, by omega⟩

/-- The loop of `wntr_midi_send_sysex`, entered with `head` inside the
logical sequence and allowed as many iterations as bytes remain, comes to
an end; `head` is inside the logical sequence at every loop head and at
every call of `sysex_iterator_next`, every call returns true, and every
iteration sends a packet. -/
theorem send_loop_trace_safe (data : List Nat) (len : Nat) : ∀ (fuel head : Nat),
    head < len + 2 → len + 2 - head ≤ fuel →
    ∃ tr : SendTrace, send_loop_trace fuel data len head = some tr ∧
      (∀ h ∈ tr.heads, h < len + 2) ∧
      (∀ c ∈ tr.calls, c.head < len + 2 ∧ c.ret = true ∧
        c.index = sysex_iterator_next_index len c.head) ∧
      tr.heads.length = tr.packets.length := by
  intro fuel
  induction fuel with
  | zero => intro head h1 h2; omega
  | succ fuel ih =>
    intro head h1 h2
    unfold send_loop_trace
    simp only [sysex_iterator_remaining]
    obtain ⟨v1, e1⟩ := sysex_iterator_next_ok data len head 0 h1
    by_cases hgt : len + 2 - head > 3
    · rw [if_pos hgt]
      obtain ⟨v2, e2⟩ := sysex_iterator_next_ok data len (head + 1) 0 (by omega)
      obtain ⟨v3, e3⟩ := sysex_iterator_next_ok data len (head + 1 + 1) 0 (by omega)
      obtain ⟨tr, htr, hh, hc, hl⟩ := ih (head + 1 + 1 + 1) (by omega) (by omega)
      simp only [e1, e2, e3, htr, Option.map_some']
      refine ⟨_, rfl, ?_, ?_, ?_⟩
      · intro h hh2
        rcases List.mem_cons.1 hh2 with rfl | hh2
        · exact h1
        · exact hh h hh2
      · intro c hc2
        simp only [List.mem_cons] at hc2
        rcases hc2 with rfl | rfl | rfl | hc2
        · exact ⟨h1, rfl, rfl⟩
        · exact ⟨by show head + 1 < len + 2; omega, rfl, rfl⟩
        · exact ⟨by show head + 1 + 1 < len + 2; omega, rfl, rfl⟩
        · exact hc c hc2
      · simp only [List.length_cons, hl]
    · rw [if_neg hgt]
      by_cases h3 : len + 2 - head = 3
      · rw [if_pos h3]
        obtain ⟨v2, e2⟩ := sysex_iterator_next_ok data len (head + 1) 0 (by omega)
        obtain ⟨v3, e3⟩ := sysex_iterator_next_ok data len (head + 1 + 1) 0 (by omega)
        simp only [e1, e2, e3]
        refine ⟨_, rfl, ?_, ?_, rfl⟩
        · intro h hh2
          rw [List.mem_singleton.1 hh2]; exact h1
        · intro c hc2
          simp only [List.mem_cons, List.mem_singleton, List.not_mem_nil, or_false] at hc2
          rcases hc2 with rfl | rfl | rfl
          · exact ⟨h1, rfl, rfl⟩
          · exact ⟨by show head + 1 < len + 2; omega, rfl, rfl⟩
          · exact ⟨by show head + 1 + 1 < len + 2; omega, rfl, rfl⟩
      · rw [if_neg h3]
        by_cases h2' : len + 2 - head = 2
        · rw [if_pos h2']
          obtain ⟨v2, e2⟩ := sysex_iterator_next_ok data len (head + 1) 0 (by omega)
          simp only [e1, e2]
          refine ⟨_, rfl, ?_, ?_, rfl⟩
          · intro h hh2
            rw [List.mem_singleton.1 hh2]; exact h1
          · intro c hc2
            simp only [List.mem_cons, List.mem_singleton, List.not_mem_nil, or_false] at hc2
            rcases hc2 with rfl | rfl
            · exact ⟨h1, rfl, rfl⟩
            · exact ⟨by show head + 1 < len + 2; omega, rfl, rfl⟩
        · rw [if_neg h2', if_pos (by omega)]
          simp only [e1]
          refine ⟨_, rfl, ?_, ?_, rfl⟩
          · intro h hh2
            rw [List.mem_singleton.1 hh2]; exact h1
          · intro c hc2
            rw [List.mem_singleton.1 hc2]
            exact ⟨h1, rfl, rfl⟩

/-! ## The wire form of the packets sent -/

/-- The packets of a packetization have one of the four SysEx code indices
as byte 0, and zero in the slots behind the bytes they carry. -/
theorem packetize_wire (xs : List Nat) :
    ∀ p ∈ packetize xs,
      (p.b0 = MIDI_CODE_INDEX_SYSEX_START_OR_CONTINUE ∨
        p.b0 = MIDI_CODE_INDEX_SYSEX_END_ONE_BYTE ∨
        p.b0 = MIDI_CODE_INDEX_SYSEX_END_TWO_BYTE ∨
        p.b0 = MIDI_CODE_INDEX_SYSEX_END_THREE_BYTE) ∧
      (p.b0 = MIDI_CODE_INDEX_SYSEX_END_TWO_BYTE → p.b3 = 0) ∧
      (p.b0 = MIDI_CODE_INDEX_SYSEX_END_ONE_BYTE → p.b2 = 0 ∧ p.b3 = 0) := by
  induction xs using packetize.induct with
  | case1 => intro p hp; simp [packetize] at hp
  | case2 a =>
    intro p hp
    rw [List.mem_singleton.1 hp]
    exact ⟨Or.inr (Or.inl rfl), fun _ => rfl, fun _ => ⟨rfl, rfl⟩⟩
  | case3 a b =>
    intro p hp
    rw [List.mem_singleton.1 hp]
    exact ⟨Or.inr (Or.inr (Or.inl rfl)), fun _ => rfl,
      fun h => absurd h (show MIDI_CODE_INDEX_SYSEX_END_TWO_BYTE ≠
        MIDI_CODE_INDEX_SYSEX_END_ONE_BYTE by decide)⟩
  | case4 a b c =>
    intro p hp
    rw [List.mem_singleton.1 hp]
    exact ⟨Or.inr (Or.inr (Or.inr rfl)),
      fun h => absurd h (show MIDI_CODE_INDEX_SYSEX_END_THREE_BYTE ≠
        MIDI_CODE_INDEX_SYSEX_END_TWO_BYTE by decide),
      fun h => absurd h (show MIDI_CODE_INDEX_SYSEX_END_THREE_BYTE ≠
        MIDI_CODE_INDEX_SYSEX_END_ONE_BYTE by decide)⟩
  | case5 a b c d rest ih =>
    intro p hp
    rw [packetize_cons3 _ _ _ _ (by simp)] at hp
    rcases List.mem_cons.1 hp with rfl | hp
    · exact ⟨Or.inl rfl,
        fun h => absurd h (show MIDI_CODE_INDEX_SYSEX_START_OR_CONTINUE ≠
          MIDI_CODE_INDEX_SYSEX_END_TWO_BYTE by decide),
        fun h => absurd h (show MIDI_CODE_INDEX_SYSEX_START_OR_CONTINUE ≠
          MIDI_CODE_INDEX_SYSEX_END_ONE_BYTE by decide)⟩
    · exact ih p hp

/-! ## Every transport, and every run -/

/-- How a transport starts, seen from a poll loop with `left` polls to go:
with `left` not-ready polls, or used up before that, or with a packet
within the `left` polls. -/
theorem transport_head (left : Nat) : ∀ t : Transport,
    (∃ t1 : Transport, t = List.replicate left none ++ t1) ∨
    (∃ g : Nat, g < left ∧ t = List.replicate g none) ∨
    (∃ (g : Nat) (p : Packet) (t1 : Transport), g < left ∧
      t = List.replicate g none ++ some p :: t1) := by
  induction left with
  | zero => intro t; exact Or.inl ⟨t, rfl⟩
  | succ l ih =>
    intro t
    cases t with
    | nil => exact Or.inr (Or.inl ⟨0, by omega, rfl⟩)
    | cons r t =>
      cases r with
      | some p => exact Or.inr (Or.inr ⟨0, p, t, by omega, rfl⟩)
      | none =>
        rcases ih t with ⟨t1, rfl⟩ | ⟨g, hg, rfl⟩ | ⟨g, p, t1, hg, rfl⟩
        · exact Or.inl ⟨t1, rfl⟩
        · exact Or.inr (Or.inl ⟨g + 1, by omega, rfl⟩)
        · exact Or.inr (Or.inr ⟨g + 1, p, t1, by omega, rfl⟩)

/-- Every transport is a run of accepted continuation packets followed by
an ending. -/
theorem transport_message : ∀ (n : Nat) (t : Transport), t.length ≤ n →
    ∃ (gs : List (Nat × Packet)) (tail : Transport),
      t = gapped gs ++ tail ∧ accepted gs ∧ ending tail := by
  intro n
  induction n with
  | zero =>
    intro t ht
    have : t = [] := List.length_eq_zero.1 (by omega)
    subst this
    exact ⟨[], [], rfl, fun x hx => absurd hx (List.not_mem_nil x),
      Or.inr (Or.inr ⟨0, by decide, rfl⟩)⟩
  | succ n ih =>
    intro t ht
    have hnil : accepted [] := fun x hx => absurd hx (List.not_mem_nil x)
    rcases transport_head SYSEX_TIMEOUT t with ⟨t1, rfl⟩ | ⟨g, hg, rfl⟩ | ⟨g, p, t1, hg, rfl⟩
    · exact ⟨[], _, rfl, hnil, Or.inr (Or.inl ⟨t1, rfl⟩)⟩
    · exact ⟨[], _, rfl, hnil, Or.inr (Or.inr ⟨g, hg, rfl⟩)⟩
    · by_cases hp : p.code = MIDI_CODE_INDEX_SYSEX_START_OR_CONTINUE
      · obtain ⟨gs, tail, rfl, hacc, hend⟩ := ih t1 (by
          simp only [List.length_append, List.length_cons, List.length_replicate] at ht
          omega)
        refine ⟨(g, p) :: gs, tail, ?_, ?_, hend⟩
        · simp only [gapped, List.append_assoc, List.cons_append]
        · intro x hx
          rcases List.mem_cons.1 hx with rfl | hx
          · exact ⟨hg, hp⟩
          · exact hacc x hx
      · exact ⟨[], _, rfl, hnil, Or.inl ⟨g, p, t1, hg, hp, rfl⟩⟩

/-- A store either succeeds or is outside the array. -/
theorem store_cases (st : SysexState) (i v : Nat) :
    st.store i v = .ok (st.write i v) ∨ st.store i v = .error (.out_of_bounds i) := by
  by_cases h : i < SYSEX_BUF_SIZE
  · exact Or.inl (store_ok st i v h)
  · exact Or.inr (store_out_of_bounds st i v h)

/-- The loop of `consume_sysex`, allowed more iterations than there are
poll results, never uses them up: it ends with a result or with a store
outside the array. -/
theorem consume_loop_fuel (fuel : Nat) : ∀ (t : Transport) (msg : WntrMIDIMessage)
    (st : SysexState) (data_index : Nat), t.length < fuel →
    consume_loop fuel t msg st data_index ≠ .error .out_of_fuel := by
  induction fuel with
  | zero => intro t msg st di h; omega
  | succ f ih =>
    intro t msg st di hlen
    rcases transport_head SYSEX_TIMEOUT t with ⟨t1, rfl⟩ | ⟨g, hg, rfl⟩ | ⟨g, p, t1, hg, rfl⟩
    · rw [consume_loop_timeout]; intro h; cases h
    · rw [consume_loop_idle _ _ hg]; intro h; cases h
    · have h := poll_loop_gap g SYSEX_TIMEOUT 0 p t1 msg hg
      simp only [Nat.zero_add] at h
      have h0 : ¬ (g = SYSEX_TIMEOUT) := by omega
      have hl : t1.length < f := by
        simp only [List.length_append, List.length_cons, List.length_replicate] at hlen
        omega
      simp only [consume_loop, h, h0, if_false, decode_code_index, decode_midi_0,
        decode_midi_1, decode_midi_2]
      split_ifs
      · rcases store_cases st di p.b1 with e1 | e1
        · rw [e1, ok_bind]
          rcases store_cases (st.write di p.b1) (di + 1) p.b2 with e2 | e2
          · rw [e2, ok_bind]
            rcases store_cases ((st.write di p.b1).write (di + 1) p.b2) (di + 2) p.b3
              with e3 | e3
            · rw [e3, ok_bind]; exact ih _ _ _ _ hl
            · rw [e3]; intro h; cases h
          · rw [e2]; intro h; cases h
        · rw [e1]; intro h; cases h
      · rcases store_cases st di p.b1 with e1 | e1
        · rw [e1, ok_bind]
          rcases store_cases (st.write di p.b1) (di + 1) p.b2 with e2 | e2
          · rw [e2, ok_bind]; intro h; cases h
          · rw [e2]; intro h; cases h
        · rw [e1]; intro h; cases h
      · rcases store_cases st di p.b1 with e1 | e1
        · rw [e1, ok_bind]; intro h; cases h
        · rw [e1]; intro h; cases h
      · intro h; cases h
      · intro h; cases h

/-- The function `consume_sysex` never uses up the iterations it allows its
loop. -/
theorem consume_sysex_fuel (t : Transport) (msg : WntrMIDIMessage) (st : SysexState) :
    consume_sysex t msg st ≠ .error .out_of_fuel := by
  unfold consume_sysex
  rw [store_ok _ _ _ (by decide), ok_bind, store_ok _ _ _ (by decide), ok_bind]
  exact consume_loop_fuel _ _ _ _ _ (by omega)

/-! ## Independence of the earlier contents of the statics -/

/-- Two buffers that agree below `d` agree below `d + 1` after the same
store at `d`. -/
theorem write_agree (st st2 : SysexState) (d v : Nat)
    (h : ∀ i, i < d → st.sysex_data_ i = st2.sysex_data_ i) :
    ∀ i, i < d + 1 → (st.write d v).sysex_data_ i = (st2.write d v).sysex_data_ i := by
  intro i hi
  simp only [write_data]
  by_cases hid : i = d
  · rw [if_pos hid, if_pos hid]
  · rw [if_neg hid, if_neg hid]
    exact h i (by omega)

/-- Whether a store succeeds does not depend on the state. -/
theorem store_ok_of_ok (st st2 s : SysexState) (i v : Nat) (h : st.store i v = .ok s) :
    s = st.write i v ∧ st2.store i v = .ok (st2.write i v) := by
  rcases store_cases st i v with e | e
  · rw [e] at h
    exact ⟨(Except.ok.inj h).symm, by
      by_cases hi : i < SYSEX_BUF_SIZE
      · exact store_ok st2 i v hi
      · rw [store_out_of_bounds st i v hi] at e; cases e⟩
  · rw [e] at h; cases h

/-- The loop of `consume_sysex` run from two states whose buffers agree
below `data_index`: when the one run returns, so does the other; the same
polls are made, `*msg` ends the same, the lengths set are equal and the
buffers agree below that length. -/
theorem consume_loop_agree (fuel : Nat) : ∀ (t : Transport) (msg : WntrMIDIMessage)
    (st st2 : SysexState) (data_index : Nat),
    (∀ i, i < data_index → st.sysex_data_ i = st2.sysex_data_ i) →
    ∀ (t1 : Transport) (msg1 : WntrMIDIMessage) (s1 : SysexState),
    consume_loop fuel t msg st data_index = .ok (t1, msg1, s1) →
    ∃ s2 : SysexState, consume_loop fuel t msg st2 data_index = .ok (t1, msg1, s2) ∧
      s2.sysex_data_len_ = s1.sysex_data_len_ ∧
      ∀ i, i < s1.sysex_data_len_ → s1.sysex_data_ i = s2.sysex_data_ i := by
  induction fuel with
  | zero => intro t msg st st2 di _ t1 msg1 s1 h; cases h
  | succ f ih =>
    intro t msg st st2 di hagree t1 msg1 s1 h
    simp only [consume_loop] at h ⊢
    generalize poll_loop SYSEX_TIMEOUT 0 t msg = x at h ⊢
    obtain ⟨m, t0, msg0⟩ := x
    simp only at h ⊢
    have a1 := write_agree st st2 di msg0.midi_0 hagree
    have a2 := write_agree _ _ (di + 1) msg0.midi_1 a1
    have a3 := write_agree _ _ (di + 1 + 1) msg0.midi_2 a2
    by_cases hm : m = SYSEX_TIMEOUT
    · rw [if_pos hm] at h ⊢
      simp only [Except.ok.injEq, Prod.mk.injEq] at h
      obtain ⟨rfl, rfl, rfl⟩ := h
      exact ⟨_, rfl, rfl, fun i hi => absurd hi (Nat.not_lt_zero i)⟩
    · rw [if_neg hm] at h ⊢
      by_cases hc : msg0.code_index = MIDI_CODE_INDEX_SYSEX_START_OR_CONTINUE
      · rw [if_pos hc] at h ⊢
        cases e1 : st.store di msg0.midi_0 with
        | error e => rw [e1] at h; cases h
        | ok u1 =>
          rw [e1, ok_bind] at h
          obtain ⟨rfl, f1⟩ := store_ok_of_ok st st2 u1 _ _ e1
          rw [f1, ok_bind]
          cases e2 : (st.write di msg0.midi_0).store (di + 1) msg0.midi_1 with
          | error e => rw [e2] at h; cases h
          | ok u2 =>
            rw [e2, ok_bind] at h
            obtain ⟨rfl, f2⟩ := store_ok_of_ok _ (st2.write di msg0.midi_0) u2 _ _ e2
            rw [f2, ok_bind]
            cases e3 : ((st.write di msg0.midi_0).write (di + 1) msg0.midi_1).store (di + 2)
                msg0.midi_2 with
            | error e => rw [e3] at h; cases h
            | ok u3 =>
              rw [e3, ok_bind] at h
              obtain ⟨rfl, f3⟩ := store_ok_of_ok _
                ((st2.write di msg0.midi_0).write (di + 1) msg0.midi_1) u3 _ _ e3
              rw [f3, ok_bind]
              exact ih _ _ _ _ _ a3 _ _ _ h
      · rw [if_neg hc] at h ⊢
        by_cases h7 : msg0.code_index = MIDI_CODE_INDEX_SYSEX_END_THREE_BYTE
        · rw [if_pos h7] at h ⊢
          cases e1 : st.store di msg0.midi_0 with
          | error e => rw [e1] at h; cases h
          | ok u1 =>
            rw [e1, ok_bind] at h
            obtain ⟨rfl, f1⟩ := store_ok_of_ok st st2 u1 _ _ e1
            rw [f1, ok_bind]
            cases e2 : (st.write di msg0.midi_0).store (di + 1) msg0.midi_1 with
            | error e => rw [e2] at h; cases h
            | ok u2 =>
              rw [e2, ok_bind] at h
              obtain ⟨rfl, f2⟩ := store_ok_of_ok _ (st2.write di msg0.midi_0) u2 _ _ e2
              rw [f2, ok_bind]
              simp only [Except.ok.injEq, Prod.mk.injEq] at h
              obtain ⟨rfl, rfl, rfl⟩ := h
              exact ⟨_, rfl, rfl, a2⟩
        · rw [if_neg h7] at h ⊢
          by_cases h6 : msg0.code_index = MIDI_CODE_INDEX_SYSEX_END_TWO_BYTE
          · rw [if_pos h6] at h ⊢
            cases e1 : st.store di msg0.midi_0 with
            | error e => rw [e1] at h; cases h
            | ok u1 =>
              rw [e1, ok_bind] at h
              obtain ⟨rfl, f1⟩ := store_ok_of_ok st st2 u1 _ _ e1
              rw [f1, ok_bind]
              simp only [Except.ok.injEq, Prod.mk.injEq] at h
              obtain ⟨rfl, rfl, rfl⟩ := h
              exact ⟨_, rfl, rfl, a1⟩
          · rw [if_neg h6, ite_self] at h ⊢
            simp only [Except.ok.injEq, Prod.mk.injEq] at h
            obtain ⟨rfl, rfl, rfl⟩ := h
            exact ⟨_, rfl, rfl, hagree⟩

/-- Two runs of `consume_sysex` on the same transport from any two states
of the statics: when the one returns, so does the other, with the same
polls made, the same `*msg`, the same length and the same bytes below
that length. -/
theorem consume_sysex_agree (t : Transport) (msg : WntrMIDIMessage) (st st2 : SysexState)
    (t1 : Transport) (msg1 : WntrMIDIMessage) (s1 : SysexState)
    (h : consume_sysex t msg st = .ok (t1, msg1, s1)) :
    ∃ s2 : SysexState, consume_sysex t msg st2 = .ok (t1, msg1, s2) ∧
      s2.sysex_data_len_ = s1.sysex_data_len_ ∧
      s1.bytes s1.sysex_data_len_ = s2.bytes s2.sysex_data_len_ := by
  unfold consume_sysex at h ⊢
  rw [store_ok _ _ _ (by decide), ok_bind, store_ok _ _ _ (by decide), ok_bind] at h ⊢
  have h0 : ∀ i, i < 0 → st.sysex_data_ i = st2.sysex_data_ i :=
    fun i hi => absurd hi (Nat.not_lt_zero i)
  have a1 := write_agree st st2 0 msg.midi_1 h0
  have a2 := write_agree _ _ (0 + 1) msg.midi_2 a1
  obtain ⟨s2, e2, e3, e4⟩ := consume_loop_agree _ _ _ _
    ((st2.write 0 msg.midi_1).write 1 msg.midi_2) 2 a2 _ _ _ h
  refine ⟨s2, e2, e3, ?_⟩
  rw [e3]
  unfold SysexState.bytes wntr_midi_sysex_data
  exact List.map_congr_left (fun i hi => e4 i (List.mem_range.1 hi))

/-! ## Messages that do not fit into the array -/

theorem gapped_append (as bs : List (Nat × Packet)) :
    gapped (as ++ bs) = gapped as ++ gapped bs := by
  induction as with
  | nil => rfl
  | cons x as ih =>
    obtain ⟨g, p⟩ := x
    rw [List.cons_append]
    simp only [gapped]
    rw [ih, List.append_assoc, List.cons_append]

theorem deliver_append (as bs : List Packet) : deliver (as ++ bs) = deliver as ++ deliver bs :=
  List.map_append some as bs

/-- A run of `consume_sysex` over more accepted continuation packets than
fit into the array (21 or more) stores the third byte of the 21st at
index 64, outside the array, whatever follows. -/
theorem consume_sysex_too_long (msg : WntrMIDIMessage) (gs : List (Nat × Packet))
    (hacc : accepted gs) (hlong : SYSEX_BUF_SIZE < 2 + 3 * gs.length) (tail : Transport)
    (st : SysexState) :
    consume_sysex (gapped gs ++ tail) msg st = .error (.out_of_bounds SYSEX_BUF_SIZE) := by
  have h21 : 20 < gs.length := by simp only [SYSEX_BUF_SIZE] at hlong; omega
  have hsplit : gs = gs.take 20 ++ gs[20] :: gs.drop 21 := by
    rw [← List.drop_eq_getElem_cons h21, List.take_append_drop]
  have hx := hacc gs[20] (List.getElem_mem h21)
  have hacc20 : accepted (gs.take 20) := fun y hy => hacc y (List.mem_of_mem_take hy)
  have hlen20 : (gs.take 20).length = 20 := by
    rw [List.length_take]; omega
  rw [hsplit, gapped_append]
  generalize gs[20] = x at hx
  obtain ⟨g, p⟩ := x
  simp only [gapped, List.append_assoc, List.cons_append]
  exact consume_sysex_overflow msg (gs.take 20) hacc20 (by rw [hlen20]; decide) g hx.1 p hx.2 _ st

/-! ## The claims -/

/-- C1, as stated, fails for a payload of one byte: `wntr_midi_send_sysex`
sends the single end-3-byte packet `F0 05 F7`, for which `wntr_midi_task`
runs no reassembly, so from the power-on state the length stays 0 instead
of becoming 1. -/
theorem C1_counterexample :
    ¬ ∃ (pkts : List Packet) (r : TaskResult),
      wntr_midi_send_sysex [5] 1 = some pkts ∧
      wntr_midi_task (deliver pkts) WntrMIDIMessage.zero SysexState.zero = Except.ok r ∧
      wntr_midi_sysex_len r.state = 1 ∧ r.state.bytes 1 = [5] := by
  rintro ⟨pkts, r, h1, h2, h3, -⟩
  have hs : wntr_midi_send_sysex [5] 1 = some [⟨7, 0xF0, 5, 0xF7⟩] := by decide
  rw [hs] at h1
  cases h1
  have ht : wntr_midi_task (deliver [⟨7, 0xF0, 5, 0xF7⟩]) WntrMIDIMessage.zero SysexState.zero =
      Except.ok ⟨true, [], Packet.decode ⟨7, 0xF0, 5, 0xF7⟩, SysexState.zero⟩ :=
    wntr_midi_task_other ⟨7, 0xF0, 5, 0xF7⟩ [] _ _ (by decide)
  rw [ht] at h2
  cases h2
  exact absurd h3 (by decide)

/-- C1, amended: round trip for payloads of 2 to 62 bytes.  The packets that
`wntr_midi_send_sysex data L` sends, delivered in order and without
not-ready polls to `wntr_midi_task`, from any state of `*msg` and of the
statics, make it return true with the transport used up,
`wntr_midi_sysex_len() = L` and the first `L` bytes of
`wntr_midi_sysex_data()` equal to `data`; every store of the run is inside
the buffer. -/
theorem C1_round_trip (data : List Nat) (msg : WntrMIDIMessage) (st : SysexState)
    (hmin : 2 ≤ data.length) (hcap : data.length ≤ SYSEX_BUF_SIZE - 2) :
    ∃ (pkts : List Packet) (r : TaskResult),
      wntr_midi_send_sysex data data.length = some pkts ∧
      wntr_midi_task (deliver pkts) msg st = Except.ok r ∧
      r.ret = true ∧ r.transport = [] ∧
      wntr_midi_sysex_len r.state = data.length ∧
      r.state.bytes data.length = data ∧
      ∃ new, r.state.stores = st.stores ++ new ∧ ∀ i ∈ new, i < SYSEX_BUF_SIZE := by
  obtain ⟨d0, d1, xs, rfl⟩ : ∃ d0 d1 xs, data = d0 :: d1 :: xs := by
    match data, hmin with
    | d0 :: d1 :: xs, _ => exact ⟨d0, d1, xs, rfl⟩
  simp only [List.length_cons, SYSEX_BUF_SIZE] at hcap
  obtain ⟨msg1, ht⟩ := task_on_fragments d0 d1 xs msg st
    (by simp only [SYSEX_BUF_SIZE]; omega)
  have hf := stored_facts st [d0, d1] xs 2 (2 + xs.length) rfl
  refine ⟨_, _, wntr_midi_send_sysex_eq _, ht, rfl, rfl, ?_, ?_, List.range (2 + xs.length),
    hf.2, ?_⟩
  · show 2 + xs.length = (d0 :: d1 :: xs).length
    simp only [List.length_cons]; omega
  · have := hf.1
    rw [show (d0 :: d1 :: xs).length = 2 + xs.length by simp only [List.length_cons]; omega]
    exact this
  · intro i hi
    have := List.mem_range.1 hi
    simp only [SYSEX_BUF_SIZE]
    omega

/-- C1, amended, at a concrete payload of four bytes. -/
theorem C1_round_trip_witness :
    2 ≤ [0x1B, 0x01, 0xAA, 0xBB].length ∧
    [0x1B, 0x01, 0xAA, 0xBB].length ≤ SYSEX_BUF_SIZE - 2 ∧
    ∃ (pkts : List Packet) (r : TaskResult),
      wntr_midi_send_sysex [0x1B, 0x01, 0xAA, 0xBB] [0x1B, 0x01, 0xAA, 0xBB].length =
        some pkts ∧
      wntr_midi_task (deliver pkts) WntrMIDIMessage.zero SysexState.zero = Except.ok r ∧
      r.ret = true ∧ r.transport = [] ∧
      wntr_midi_sysex_len r.state = [0x1B, 0x01, 0xAA, 0xBB].length ∧
      r.state.bytes [0x1B, 0x01, 0xAA, 0xBB].length = [0x1B, 0x01, 0xAA, 0xBB] ∧
      ∃ new, r.state.stores = SysexState.zero.stores ++ new ∧ ∀ i ∈ new, i < SYSEX_BUF_SIZE :=
  ⟨by decide, by decide,
    C1_round_trip [0x1B, 0x01, 0xAA, 0xBB] WntrMIDIMessage.zero SysexState.zero
      (by decide) (by decide)⟩

/-- C2: reassembly of a legal sequence.  After a start packet `s`, for `k`
start-or-continue packets `conts` followed by an end packet `e` of kind
end-1-byte, end-2-byte or end-3-byte (`j = 0, 1, 2`) with
`2 + 3 k + j ≤ 64`, `consume_sysex` returns having read exactly these
packets, with `sysex_data_len_ = 2 + 3 k + j` and the buffer holding, from
index 0, bytes 2 and 3 of the start packet, the three data bytes of each
continuation packet and the first `j` data bytes of the end packet; every
store is inside the buffer. -/
theorem C2_reassembly_of_legal_sequence (s : Packet) (conts : List Packet) (e : Packet)
    (j : Nat) (rest : Transport) (st : SysexState)
    (hconts : ∀ p ∈ conts, p.code = MIDI_CODE_INDEX_SYSEX_START_OR_CONTINUE)
    (hend : (j = 0 ∧ e.code = MIDI_CODE_INDEX_SYSEX_END_ONE_BYTE) ∨
      (j = 1 ∧ e.code = MIDI_CODE_INDEX_SYSEX_END_TWO_BYTE) ∨
      (j = 2 ∧ e.code = MIDI_CODE_INDEX_SYSEX_END_THREE_BYTE))
    (hcap : 2 + 3 * conts.length + j ≤ SYSEX_BUF_SIZE) :
    ∃ st1, consume_sysex (deliver conts ++ some e :: rest) s.decode st =
        Except.ok (rest, e.decode, st1) ∧
      st1.sysex_data_len_ = 2 + 3 * conts.length + j ∧
      st1.bytes (2 + 3 * conts.length + j) =
        s.b2 :: s.b3 :: data3_all conts ++ [e.b1, e.b2].take j ∧
      ∃ new, st1.stores = st.stores ++ new ∧ ∀ i ∈ new, i < SYSEX_BUF_SIZE := by
  obtain ⟨hcb, he⟩ := closing_bytes_of_end e j hend
  have hj : ([e.b1, e.b2].take j).length = j := by
    rcases hend with ⟨rfl, -⟩ | ⟨rfl, -⟩ | ⟨rfl, -⟩ <;> rfl
  have h := consume_sysex_close s.decode (conts.map (fun p => (0, p)))
    (accepted_deliver conts hconts) (by rw [List.length_map]; omega) 0 (by decide) e he rest st
  rw [← deliver_eq_gapped, map_snd_zero, List.length_map, hcb, hj] at h
  have hf := stored_facts st (s.b2 :: s.b3 :: data3_all conts) ([e.b1, e.b2].take j)
    (2 + 3 * conts.length) (2 + 3 * conts.length + j)
    (by simp only [List.length_cons, data3_all_length]; omega)
  rw [hj] at hf
  refine ⟨_, h, rfl, hf.1, _, hf.2, ?_⟩
  intro i hi
  have := List.mem_range.1 hi
  omega

/-- C2 at a start packet, one continuation packet and an end-2-byte
packet. -/
theorem C2_reassembly_of_legal_sequence_witness :
    (∀ p ∈ [(⟨4, 1, 2, 3⟩ : Packet)], p.code = MIDI_CODE_INDEX_SYSEX_START_OR_CONTINUE) ∧
    ((1 = 0 ∧ Packet.code ⟨6, 9, 0xF7, 0⟩ = MIDI_CODE_INDEX_SYSEX_END_ONE_BYTE) ∨
      (1 = 1 ∧ Packet.code ⟨6, 9, 0xF7, 0⟩ = MIDI_CODE_INDEX_SYSEX_END_TWO_BYTE) ∨
      (1 = 2 ∧ Packet.code ⟨6, 9, 0xF7, 0⟩ = MIDI_CODE_INDEX_SYSEX_END_THREE_BYTE)) ∧
    2 + 3 * [(⟨4, 1, 2, 3⟩ : Packet)].length + 1 ≤ SYSEX_BUF_SIZE ∧
    ∃ st1, consume_sysex (deliver [⟨4, 1, 2, 3⟩] ++ some ⟨6, 9, 0xF7, 0⟩ :: [])
          (Packet.decode ⟨4, 0xF0, 0x1B, 1⟩) SysexState.zero =
        Except.ok ([], Packet.decode ⟨6, 9, 0xF7, 0⟩, st1) ∧
      st1.sysex_data_len_ = 2 + 3 * [(⟨4, 1, 2, 3⟩ : Packet)].length + 1 ∧
      st1.bytes (2 + 3 * [(⟨4, 1, 2, 3⟩ : Packet)].length + 1) =
        (⟨4, 0xF0, 0x1B, 1⟩ : Packet).b2 :: (⟨4, 0xF0, 0x1B, 1⟩ : Packet).b3 ::
          data3_all [⟨4, 1, 2, 3⟩] ++
          [(⟨6, 9, 0xF7, 0⟩ : Packet).b1, (⟨6, 9, 0xF7, 0⟩ : Packet).b2].take 1 ∧
      ∃ new, st1.stores = SysexState.zero.stores ++ new ∧ ∀ i ∈ new, i < SYSEX_BUF_SIZE :=
  ⟨by decide, by decide, by decide,
    C2_reassembly_of_legal_sequence ⟨4, 0xF0, 0x1B, 1⟩ [⟨4, 1, 2, 3⟩] ⟨6, 9, 0xF7, 0⟩ 1 []
      SysexState.zero (by decide) (by decide) (by decide)⟩

/-- C3: packet count and tail framing of the fragmenter.  For every payload
of length `L`, `wntr_midi_send_sysex` returns after sending exactly
`ceil((L + 2) / 3)` packets; every packet but the last has code index
start-or-continue and carries 3 bytes; the last has code index end-3-byte,
end-1-byte or end-2-byte as `(L + 2) mod 3` is 0, 1 or 2.  For `L = 0` the
one packet is the end-2-byte packet `F0 F7`, and `L = 0, 1, 2, 3, 4, 7`
give 1, 1, 2, 2, 2, 3 packets ending in end-2, end-3, end-1, end-2, end-3,
end-3. -/
theorem C3_packet_count_and_tail_framing (data : List Nat) :
    ∃ (pkts : List Packet) (last : Packet),
      wntr_midi_send_sysex data data.length = some pkts ∧
      pkts.length = (data.length + 2 + 2) / 3 ∧
      (∀ p ∈ pkts.dropLast,
        p.code = MIDI_CODE_INDEX_SYSEX_START_OR_CONTINUE ∧ p.carried.length = 3) ∧
      pkts.getLast? = some last ∧
      last.code =
        (if (data.length + 2) % 3 = 0 then MIDI_CODE_INDEX_SYSEX_END_THREE_BYTE
         else if (data.length + 2) % 3 = 1 then MIDI_CODE_INDEX_SYSEX_END_ONE_BYTE
         else MIDI_CODE_INDEX_SYSEX_END_TWO_BYTE) ∧
      (data.length = 0 →
        pkts = [⟨MIDI_CODE_INDEX_SYSEX_END_TWO_BYTE, SYSEX_START_BYTE, SYSEX_END_BYTE, 0⟩]) ∧
      ∀ x ∈ [(0, 1, MIDI_CODE_INDEX_SYSEX_END_TWO_BYTE),
          (1, 1, MIDI_CODE_INDEX_SYSEX_END_THREE_BYTE),
          (2, 2, MIDI_CODE_INDEX_SYSEX_END_ONE_BYTE),
          (3, 2, MIDI_CODE_INDEX_SYSEX_END_TWO_BYTE),
          (4, 2, MIDI_CODE_INDEX_SYSEX_END_THREE_BYTE),
          (7, 3, MIDI_CODE_INDEX_SYSEX_END_THREE_BYTE)],
        data.length = x.1 → pkts.length = x.2.1 ∧ last.code = x.2.2 := by
  have hlen := logical_sequence_length data
  obtain ⟨last, h1, h2⟩ := packetize_getLast (logical_sequence data)
    (by intro h; rw [h] at hlen; simp at hlen)
  have hcount := packetize_length (logical_sequence data)
  rw [hlen] at hcount h2
  unfold tail_code at h2
  refine ⟨_, last, wntr_midi_send_sysex_eq data, hcount, packetize_dropLast _, h1, h2, ?_, ?_⟩
  · intro h0
    rw [List.length_eq_zero.1 h0]
    rfl
  · intro x hx hL
    rw [hcount, h2, hL]
    simp only [List.mem_cons, List.mem_singleton, List.not_mem_nil, or_false] at hx
    rcases hx with rfl | rfl | rfl | rfl | rfl | rfl <;> exact ⟨by decide, by decide⟩

/-- C4: logical sequence of the fragmenter.  For every payload `data` of
length `L`, the bytes carried by the packets that `wntr_midi_send_sysex`
sends, taken in order, are `F0`, the payload, `F7`: a sequence of
length `L + 2`. -/
theorem C4_logical_sequence (data : List Nat) :
    ∃ pkts : List Packet,
      wntr_midi_send_sysex data data.length = some pkts ∧
      logical_bytes pkts = [SYSEX_START_BYTE] ++ data ++ [SYSEX_END_BYTE] ∧
      (logical_bytes pkts).length = data.length + 2 := by
  refine ⟨_, wntr_midi_send_sysex_eq data, ?_, ?_⟩
  · rw [packetize_logical_bytes]; rfl
  · rw [packetize_logical_bytes, logical_sequence_length]

/-- C6, as stated, fails for 21 accepted start-or-continue packets: before
the not-ready polls begin, the last byte of the 21st packet is stored at
index 64, outside `sysex_data_[64]`, and `consume_sysex` has no defined
result, so none with length 0. -/
theorem C6_counterexample :
    consume_sysex
        (gapped (List.replicate 21 (0, ⟨4, 0, 0, 0⟩)) ++
          (List.replicate SYSEX_TIMEOUT none ++ []))
        (Packet.decode ⟨4, 0xF0, 1, 2⟩) SysexState.zero =
      Except.error (Fault.out_of_bounds 64) ∧
    ¬ ∃ (msg1 : WntrMIDIMessage) (st1 : SysexState),
      consume_sysex
          (gapped (List.replicate 21 (0, ⟨4, 0, 0, 0⟩)) ++
            (List.replicate SYSEX_TIMEOUT none ++ []))
          (Packet.decode ⟨4, 0xF0, 1, 2⟩) SysexState.zero = Except.ok ([], msg1, st1) ∧
      wntr_midi_sysex_len st1 = 0 := by
  have h := consume_sysex_too_long (Packet.decode ⟨4, 0xF0, 1, 2⟩)
    (List.replicate 21 (0, ⟨4, 0, 0, 0⟩))
    (by intro x hx; rw [List.eq_of_mem_replicate hx]; exact ⟨by decide, by decide⟩)
    (by decide) (List.replicate SYSEX_TIMEOUT none ++ []) SysexState.zero
  refine ⟨h, ?_⟩
  rintro ⟨msg1, st1, h1, -⟩
  rw [h] at h1
  cases h1

/-- C6, amended: timeout.  After the start packet (decoded in `msg`) and a
run `gs` of `k` accepted start-or-continue packets that fit into the
buffer (`2 + 3 * k ≤ 64`, that is `k ≤ 20`), `SYSEX_TIMEOUT = 100000`
not-ready polls in a row make `consume_sysex` return, having polled no
further, with the reassembled length 0, whatever was stored before; all
its stores were inside the buffer. -/
theorem C6_timeout_resets_length (msg : WntrMIDIMessage) (gs : List (Nat × Packet))
    (rest : Transport) (st : SysexState) (hacc : accepted gs)
    (hcap : 2 + 3 * gs.length ≤ SYSEX_BUF_SIZE) :
    ∃ (msg1 : WntrMIDIMessage) (st1 : SysexState),
      consume_sysex (gapped gs ++ (List.replicate SYSEX_TIMEOUT none ++ rest)) msg st =
        Except.ok (rest, msg1, st1) ∧
      wntr_midi_sysex_len st1 = 0 ∧
      ∃ new, st1.stores = st.stores ++ new ∧ ∀ i ∈ new, i < SYSEX_BUF_SIZE := by
  have hf := stored_facts st (msg.midi_1 :: msg.midi_2 :: data3_all (gs.map Prod.snd))
    [] (2 + 3 * gs.length) 0
    (by simp only [List.length_cons, data3_all_length, List.length_map]; omega)
  refine ⟨_, _, consume_sysex_timeout msg gs hacc hcap rest st, rfl, _, hf.2, ?_⟩
  intro i hi
  have := List.mem_range.1 hi
  simp only [List.length_nil] at this
  omega

/-- C6, amended, after one continuation packet that arrived on the fourth
poll. -/
theorem C6_timeout_resets_length_witness :
    accepted [(3, ⟨4, 1, 2, 3⟩)] ∧
    2 + 3 * [((3 : Nat), (⟨4, 1, 2, 3⟩ : Packet))].length ≤ SYSEX_BUF_SIZE ∧
    ∃ (msg1 : WntrMIDIMessage) (st1 : SysexState),
      consume_sysex (gapped [(3, ⟨4, 1, 2, 3⟩)] ++ (List.replicate SYSEX_TIMEOUT none ++ []))
          (Packet.decode ⟨4, 0xF0, 0x1B, 1⟩) SysexState.zero =
        Except.ok ([], msg1, st1) ∧
      wntr_midi_sysex_len st1 = 0 ∧
      ∃ new, st1.stores = SysexState.zero.stores ++ new ∧ ∀ i ∈ new, i < SYSEX_BUF_SIZE :=
  have hacc : accepted [(3, ⟨4, 1, 2, 3⟩)] := by
    intro x hx
    rw [List.mem_singleton.1 hx]
    exact ⟨by decide, by decide⟩
  ⟨hacc, by decide,
    C6_timeout_resets_length (Packet.decode ⟨4, 0xF0, 0x1B, 1⟩) [(3, ⟨4, 1, 2, 3⟩)] []
      SysexState.zero hacc (by decide)⟩

/-- C7, as stated, fails: for the packets `F0 1B 01` (start-or-continue) and
`AA BB F7` (end-3-byte) the reassembled length is not 5 and the end byte
is not among the bytes. -/
theorem C7_counterexample :
    ¬ ∃ r : TaskResult,
      wntr_midi_task [some ⟨4, 0xF0, 0x1B, 0x01⟩, some ⟨7, 0xAA, 0xBB, 0xF7⟩]
        WntrMIDIMessage.zero SysexState.zero = Except.ok r ∧
      wntr_midi_sysex_len r.state = 5 ∧
      r.state.bytes 5 = [0x1B, 0x01, 0xAA, 0xBB, 0xF7] := by
  rintro ⟨r, h1, h2, -⟩
  have h := consume_sysex_close (Packet.decode ⟨4, 0xF0, 0x1B, 0x01⟩) []
    (by intro x hx; cases hx) (by decide) 0 (by decide) ⟨7, 0xAA, 0xBB, 0xF7⟩ (by decide) []
    SysexState.zero
  have ht := wntr_midi_task_start ⟨4, 0xF0, 0x1B, 0x01⟩ _ WntrMIDIMessage.zero SysexState.zero
    (by decide) _ _ _ h
  have hr := Except.ok.inj (h1.symm.trans ht)
  subst hr
  exact absurd h2 (by decide)

/-- C7, amended: for the packets `F0 1B 01` (start-or-continue) and
`AA BB F7` (end-3-byte), from any state and whatever follows on the
transport, `wntr_midi_task` returns true having read just these two
packets; the reassembled payload is `1B 01 AA BB` of length 4: neither
the start byte nor the end byte is stored. -/
theorem C7_reassembly_scenario (rest : Transport) (msg : WntrMIDIMessage) (st : SysexState) :
    ∃ r : TaskResult,
      wntr_midi_task (some ⟨4, 0xF0, 0x1B, 0x01⟩ :: some ⟨7, 0xAA, 0xBB, 0xF7⟩ :: rest)
        msg st = Except.ok r ∧
      r.ret = true ∧ r.transport = rest ∧
      wntr_midi_sysex_len r.state = 4 ∧
      r.state.bytes (wntr_midi_sysex_len r.state) = [0x1B, 0x01, 0xAA, 0xBB] ∧
      r.state.stores = st.stores ++ [0, 1, 2, 3] := by
  have h := consume_sysex_close (Packet.decode ⟨4, 0xF0, 0x1B, 0x01⟩) []
    (by intro x hx; cases hx) (by decide) 0 (by decide) ⟨7, 0xAA, 0xBB, 0xF7⟩ (by decide) rest
    st
  have hcb : closing_bytes ⟨7, 0xAA, 0xBB, 0xF7⟩ = [0xAA, 0xBB] := by decide
  rw [hcb] at h
  have ht := wntr_midi_task_start ⟨4, 0xF0, 0x1B, 0x01⟩ _ msg st (by decide) _ _ _ h
  have hf := stored_facts st [0x1B, 0x01] [0xAA, 0xBB] 2 4 rfl
  exact ⟨_, ht, rfl, rfl, rfl, hf.1, hf.2⟩

/-- C8, as stated, fails: the second packet sent for the payload
`01 02 03 04 05` is not an end-3-byte packet. -/
theorem C8_counterexample :
    ¬ ∃ (p1 p2 : Packet) (more : List Packet),
      wntr_midi_send_sysex [0x01, 0x02, 0x03, 0x04, 0x05] 5 = some (p1 :: p2 :: more) ∧
      p1.code = MIDI_CODE_INDEX_SYSEX_START_OR_CONTINUE ∧ p1.carried = [0xF0, 0x01, 0x02] ∧
      p2.code = MIDI_CODE_INDEX_SYSEX_END_THREE_BYTE ∧ p2.carried = [0x03, 0x04, 0x05] := by
  rintro ⟨p1, p2, more, h, -, -, h2, -⟩
  have hs : wntr_midi_send_sysex [0x01, 0x02, 0x03, 0x04, 0x05] 5 =
      some [⟨4, 0xF0, 1, 2⟩, ⟨4, 3, 4, 5⟩, ⟨5, 0xF7, 0, 0⟩] := by decide
  rw [hs] at h
  cases h
  exact absurd h2 (by decide)

/-- C8, amended: for the payload `01 02 03 04 05` (`L = 5`, a logical
sequence of 7 bytes) `wntr_midi_send_sysex` sends three packets: a
start-or-continue packet carrying `F0 01 02`, a start-or-continue packet
carrying `03 04 05`, and an end-1-byte packet carrying `F7`. -/
theorem C8_fragmenting_scenario :
    wntr_midi_send_sysex [0x01, 0x02, 0x03, 0x04, 0x05] 5 =
      some [⟨MIDI_CODE_INDEX_SYSEX_START_OR_CONTINUE, 0xF0, 0x01, 0x02⟩,
        ⟨MIDI_CODE_INDEX_SYSEX_START_OR_CONTINUE, 0x03, 0x04, 0x05⟩,
        ⟨MIDI_CODE_INDEX_SYSEX_END_ONE_BYTE, 0xF7, 0, 0⟩] := by
  decide

/-- C9: packet decode and its inverse.  For every raw packet `p` (byte 0
below 256) that the transport delivers, `midi_read` returns true with
`cable = p[0] div 16`, `code_index = p[0] mod 16` and the three data bytes
`p[1]`, `p[2]`, `p[3]`; cable and code index are below 16, and
`[cable * 16 + code_index, midi_0, midi_1, midi_2]` is `p` again. -/
theorem C9_decode_and_inverse (p : Packet) (t : Transport) (msg : WntrMIDIMessage)
    (hbyte : p.b0 < 256) :
    ∃ msg1 : WntrMIDIMessage,
      midi_read (some p :: t) msg = (true, t, msg1) ∧
      msg1.cable = p.b0 / 16 ∧ msg1.code_index = p.b0 % 16 ∧
      msg1.midi_0 = p.b1 ∧ msg1.midi_1 = p.b2 ∧ msg1.midi_2 = p.b3 ∧
      msg1.cable < 16 ∧ msg1.code_index < 16 ∧
      (⟨msg1.cable * 16 + msg1.code_index, msg1.midi_0, msg1.midi_1, msg1.midi_2⟩ : Packet) =
        p := by
  have hcable : p.decode.cable = p.b0 / 16 := by
    show p.b0 >>> 4 &&& 0xF = p.b0 / 16
    have h1 : p.b0 >>> 4 = p.b0 / 16 := Nat.shiftRight_eq_div_pow p.b0 4
    have h2 : ∀ x : Nat, x &&& 0xF = x % 16 := fun x => Nat.and_pow_two_sub_one_eq_mod x 4
    rw [h1, h2]
    omega
  have hcode : p.decode.code_index = p.b0 % 16 := code_eq_mod p
  refine ⟨p.decode, rfl, hcable, hcode, rfl, rfl, rfl, ?_, ?_, ?_⟩
  · rw [hcable]; omega
  · rw [hcode]; omega
  · rw [hcable, hcode]
    obtain ⟨b0, b1, b2, b3⟩ := p
    simp only [decode_midi_0, decode_midi_1, decode_midi_2, Packet.mk.injEq, and_true]
    omega

/-- C9 at the packet `2B 90 3C 7F` (cable 2, code index 0xB). -/
theorem C9_decode_and_inverse_witness :
    (⟨0x2B, 0x90, 0x3C, 0x7F⟩ : Packet).b0 < 256 ∧
    ∃ msg1 : WntrMIDIMessage,
      midi_read (some ⟨0x2B, 0x90, 0x3C, 0x7F⟩ :: []) WntrMIDIMessage.zero = (true, [], msg1) ∧
      msg1.cable = (⟨0x2B, 0x90, 0x3C, 0x7F⟩ : Packet).b0 / 16 ∧
      msg1.code_index = (⟨0x2B, 0x90, 0x3C, 0x7F⟩ : Packet).b0 % 16 ∧
      msg1.midi_0 = (⟨0x2B, 0x90, 0x3C, 0x7F⟩ : Packet).b1 ∧
      msg1.midi_1 = (⟨0x2B, 0x90, 0x3C, 0x7F⟩ : Packet).b2 ∧
      msg1.midi_2 = (⟨0x2B, 0x90, 0x3C, 0x7F⟩ : Packet).b3 ∧
      msg1.cable < 16 ∧ msg1.code_index < 16 ∧
      (⟨msg1.cable * 16 + msg1.code_index, msg1.midi_0, msg1.midi_1, msg1.midi_2⟩ : Packet) =
        ⟨0x2B, 0x90, 0x3C, 0x7F⟩ :=
  ⟨by decide, C9_decode_and_inverse ⟨0x2B, 0x90, 0x3C, 0x7F⟩ [] WntrMIDIMessage.zero (by decide)⟩

/-- C10, as stated, fails for `k = 21` continuation packets: the last byte
of the 21st is stored at index 64, outside `sysex_data_[64]`, before the
malformed packet is read, and `consume_sysex` has no defined result, so
none with length `2 + 3 * 21 = 65`. -/
theorem C10_counterexample :
    consume_sysex
        (gapped (List.replicate 21 (0, ⟨4, 0, 0, 0⟩)) ++
          (List.replicate 2 none ++ some ⟨9, 0x90, 0x3C, 0x7F⟩ :: []))
        (Packet.decode ⟨4, 0xF0, 1, 2⟩) SysexState.zero =
      Except.error (Fault.out_of_bounds 64) ∧
    ¬ ∃ st1 : SysexState,
      consume_sysex
          (gapped (List.replicate 21 (0, ⟨4, 0, 0, 0⟩)) ++
            (List.replicate 2 none ++ some ⟨9, 0x90, 0x3C, 0x7F⟩ :: []))
          (Packet.decode ⟨4, 0xF0, 1, 2⟩) SysexState.zero =
        Except.ok ([], Packet.decode ⟨9, 0x90, 0x3C, 0x7F⟩, st1) ∧
      wntr_midi_sysex_len st1 = 2 + 3 * 21 := by
  have h := consume_sysex_too_long (Packet.decode ⟨4, 0xF0, 1, 2⟩)
    (List.replicate 21 (0, ⟨4, 0, 0, 0⟩))
    (by intro x hx; rw [List.eq_of_mem_replicate hx]; exact ⟨by decide, by decide⟩)
    (by decide) (List.replicate 2 none ++ some ⟨9, 0x90, 0x3C, 0x7F⟩ :: []) SysexState.zero
  refine ⟨h, ?_⟩
  rintro ⟨st1, h1, -⟩
  rw [h] at h1
  cases h1

/-- C10, amended: malformed continuation.  After the start packet (decoded
in `msg`) and a run `gs` of `k` accepted start-or-continue packets that
fit into the buffer (`2 + 3 * k ≤ 64`, that is `k ≤ 20`), a packet whose
code index is none of start-or-continue, end-1-byte, end-2-byte and
end-3-byte makes `consume_sysex` return at once (nothing after it is
read) with the length `2 + 3 k`, the buffer holding the bytes accumulated
before it, and no store made for it. -/
theorem C10_malformed_continuation (msg : WntrMIDIMessage) (gs : List (Nat × Packet))
    (g : Nat) (p : Packet) (rest : Transport) (st : SysexState)
    (hacc : accepted gs) (hcap : 2 + 3 * gs.length ≤ SYSEX_BUF_SIZE)
    (hg : g < SYSEX_TIMEOUT)
    (hp : p.code ≠ MIDI_CODE_INDEX_SYSEX_START_OR_CONTINUE ∧
      p.code ≠ MIDI_CODE_INDEX_SYSEX_END_ONE_BYTE ∧
      p.code ≠ MIDI_CODE_INDEX_SYSEX_END_TWO_BYTE ∧
      p.code ≠ MIDI_CODE_INDEX_SYSEX_END_THREE_BYTE) :
    ∃ st1 : SysexState,
      consume_sysex (gapped gs ++ (List.replicate g none ++ some p :: rest)) msg st =
        Except.ok (rest, p.decode, st1) ∧
      wntr_midi_sysex_len st1 = 2 + 3 * gs.length ∧
      st1.bytes (2 + 3 * gs.length) =
        msg.midi_1 :: msg.midi_2 :: data3_all (gs.map Prod.snd) ∧
      st1.stores = st.stores ++ List.range (2 + 3 * gs.length) := by
  have h := consume_sysex_close msg gs hacc hcap g hg p hp.1 rest st
  rw [closing_bytes_of_other p ⟨hp.2.2.1, hp.2.2.2⟩] at h
  have hf := stored_facts st (msg.midi_1 :: msg.midi_2 :: data3_all (gs.map Prod.snd)) []
    (2 + 3 * gs.length) (2 + 3 * gs.length)
    (by simp only [List.length_cons, data3_all_length, List.length_map]; omega)
  simp only [List.length_nil, Nat.add_zero, List.append_nil] at hf
  exact ⟨_, h, rfl, hf.1, hf.2⟩

/-- C10, amended, after one continuation packet, at a note-on packet (code
index 9) that arrives on the third poll. -/
theorem C10_malformed_continuation_witness :
    accepted [(0, ⟨4, 1, 2, 3⟩)] ∧
    2 + 3 * [((0 : Nat), (⟨4, 1, 2, 3⟩ : Packet))].length ≤ SYSEX_BUF_SIZE ∧
    2 < SYSEX_TIMEOUT ∧
    (Packet.code ⟨9, 0x90, 0x3C, 0x7F⟩ ≠ MIDI_CODE_INDEX_SYSEX_START_OR_CONTINUE ∧
      Packet.code ⟨9, 0x90, 0x3C, 0x7F⟩ ≠ MIDI_CODE_INDEX_SYSEX_END_ONE_BYTE ∧
      Packet.code ⟨9, 0x90, 0x3C, 0x7F⟩ ≠ MIDI_CODE_INDEX_SYSEX_END_TWO_BYTE ∧
      Packet.code ⟨9, 0x90, 0x3C, 0x7F⟩ ≠ MIDI_CODE_INDEX_SYSEX_END_THREE_BYTE) ∧
    ∃ st1 : SysexState,
      consume_sysex
          (gapped [(0, ⟨4, 1, 2, 3⟩)] ++
            (List.replicate 2 none ++ some ⟨9, 0x90, 0x3C, 0x7F⟩ :: []))
          (Packet.decode ⟨4, 0xF0, 0x1B, 1⟩) SysexState.zero =
        Except.ok ([], Packet.decode ⟨9, 0x90, 0x3C, 0x7F⟩, st1) ∧
      wntr_midi_sysex_len st1 = 2 + 3 * [((0 : Nat), (⟨4, 1, 2, 3⟩ : Packet))].length ∧
      st1.bytes (2 + 3 * [((0 : Nat), (⟨4, 1, 2, 3⟩ : Packet))].length) =
        (Packet.decode ⟨4, 0xF0, 0x1B, 1⟩).midi_1 :: (Packet.decode ⟨4, 0xF0, 0x1B, 1⟩).midi_2 ::
          data3_all ([((0 : Nat), (⟨4, 1, 2, 3⟩ : Packet))].map Prod.snd) ∧
      st1.stores = SysexState.zero.stores ++
        List.range (2 + 3 * [((0 : Nat), (⟨4, 1, 2, 3⟩ : Packet))].length) :=
  have hacc : accepted [(0, ⟨4, 1, 2, 3⟩)] := by
    intro x hx
    rw [List.mem_singleton.1 hx]
    exact ⟨by decide, by decide⟩
  ⟨hacc, by decide, by decide, by decide,
    C10_malformed_continuation (Packet.decode ⟨4, 0xF0, 0x1B, 1⟩) [(0, ⟨4, 1, 2, 3⟩)] 2
      ⟨9, 0x90, 0x3C, 0x7F⟩ [] SysexState.zero hacc (by decide) (by decide) (by decide)⟩

/-- C11: reassembly runs only for SysEx start packets, and other reads
leave its state alone.  If the first transport read of `wntr_midi_task` is
not-ready, it returns false and `*msg`, the reassembly buffer and the
reassembled length (and the record of stores) are unchanged.  If it reads a
packet `p` whose code index is not start-or-continue, it returns true with
`*msg` the decoded packet, the rest `q` of the transport is untouched (no
further read), and buffer and length are unchanged. -/
theorem C11_other_reads_leave_state (t q : Transport) (p : Packet) (msg : WntrMIDIMessage)
    (st : SysexState) (hidle : (tud_midi_receive t).1 = none)
    (hp : p.code ≠ MIDI_CODE_INDEX_SYSEX_START_OR_CONTINUE) :
    wntr_midi_task t msg st = Except.ok ⟨false, (tud_midi_receive t).2, msg, st⟩ ∧
    wntr_midi_task (some p :: q) msg st =
      Except.ok ⟨true, q,
        { cable := p.b0 >>> 4 &&& 0xF
          code_index := p.b0 &&& 0xF
          midi_0 := p.b1
          midi_1 := p.b2
          midi_2 := p.b3 }, st⟩ :=
  ⟨wntr_midi_task_idle t msg st hidle, wntr_midi_task_other p q msg st hp⟩

/-- C11 at a transport whose first poll is not-ready, and at a note-on
packet (code index 9) followed by a SysEx start packet. -/
theorem C11_other_reads_leave_state_witness :
    (tud_midi_receive [none, some ⟨4, 0xF0, 1, 2⟩]).1 = none ∧
    Packet.code ⟨0x19, 0x90, 0x3C, 0x7F⟩ ≠ MIDI_CODE_INDEX_SYSEX_START_OR_CONTINUE ∧
    wntr_midi_task [none, some ⟨4, 0xF0, 1, 2⟩] WntrMIDIMessage.zero SysexState.zero =
      Except.ok ⟨false, (tud_midi_receive [none, some ⟨4, 0xF0, 1, 2⟩]).2, WntrMIDIMessage.zero,
        SysexState.zero⟩ ∧
    wntr_midi_task (some ⟨0x19, 0x90, 0x3C, 0x7F⟩ :: [some ⟨4, 0xF0, 1, 2⟩])
        WntrMIDIMessage.zero SysexState.zero =
      Except.ok ⟨true, [some ⟨4, 0xF0, 1, 2⟩],
        { cable := (⟨0x19, 0x90, 0x3C, 0x7F⟩ : Packet).b0 >>> 4 &&& 0xF
          code_index := (⟨0x19, 0x90, 0x3C, 0x7F⟩ : Packet).b0 &&& 0xF
          midi_0 := (⟨0x19, 0x90, 0x3C, 0x7F⟩ : Packet).b1
          midi_1 := (⟨0x19, 0x90, 0x3C, 0x7F⟩ : Packet).b2
          midi_2 := (⟨0x19, 0x90, 0x3C, 0x7F⟩ : Packet).b3 }, SysexState.zero⟩ :=
  ⟨rfl, by decide,
    C11_other_reads_leave_state [none, some ⟨4, 0xF0, 1, 2⟩] [some ⟨4, 0xF0, 1, 2⟩]
      ⟨0x19, 0x90, 0x3C, 0x7F⟩ WntrMIDIMessage.zero SysexState.zero rfl (by decide)⟩

/-- C12, as stated, fails for a transport with 21 continuation packets
behind the start packet: from the power-on state and from a used state
alike, the last byte of the 21st continuation packet is stored at index
64, outside `sysex_data_[64]`, and neither run has a defined final length
or buffer to compare. -/
theorem C12_counterexample :
    wntr_midi_task
        (some ⟨4, 0xF0, 0x1B, 1⟩ ::
          (gapped (List.replicate 21 (0, ⟨4, 1, 2, 3⟩)) ++ [some ⟨6, 9, 0xF7, 0⟩]))
        WntrMIDIMessage.zero SysexState.zero = Except.error (Fault.out_of_bounds 64) ∧
    wntr_midi_task
        (some ⟨4, 0xF0, 0x1B, 1⟩ ::
          (gapped (List.replicate 21 (0, ⟨4, 1, 2, 3⟩)) ++ [some ⟨6, 9, 0xF7, 0⟩]))
        ⟨3, 4, 0, 0, 0⟩ ⟨fun _ => 0xFF, 7, [0, 1, 2, 3, 4, 5, 6]⟩ =
      Except.error (Fault.out_of_bounds 64) := by
  have hacc : accepted (List.replicate 21 (0, ⟨4, 1, 2, 3⟩)) := by
    intro x hx
    rw [List.eq_of_mem_replicate hx]
    exact ⟨by decide, by decide⟩
  exact ⟨wntr_midi_task_fault _ _ _ _ (by decide) _
      (consume_sysex_too_long _ _ hacc (by decide) _ _),
    wntr_midi_task_fault _ _ _ _ (by decide) _
      (consume_sysex_too_long _ _ hacc (by decide) _ _)⟩

/-- C12, amended: each reassembly starts afresh.  For any two initial
states of the reassembly buffer and length (and of `*msg`), running
`wntr_midi_task` on the same transport, which starts with a
start-or-continue packet `s` followed by a message that fits into the
buffer (a run `gs` of `k` accepted start-or-continue packets with
`2 + 3 * k ≤ 64`, that is `k ≤ 20`, and any ending), returns in both
cases, with the same final length and the same bytes of the buffer below
that length (and the same return value, polls made and `*msg`): the
result depends only on the packets read. -/
theorem C12_reassembly_starts_afresh (s : Packet) (gs : List (Nat × Packet))
    (tail : Transport) (msg msg2 : WntrMIDIMessage) (st st2 : SysexState)
    (hs : s.code = MIDI_CODE_INDEX_SYSEX_START_OR_CONTINUE) (hacc : accepted gs)
    (hcap : 2 + 3 * gs.length ≤ SYSEX_BUF_SIZE) (hend : ending tail) :
    ∃ r r2 : TaskResult,
      wntr_midi_task (some s :: (gapped gs ++ tail)) msg st = Except.ok r ∧
      wntr_midi_task (some s :: (gapped gs ++ tail)) msg2 st2 = Except.ok r2 ∧
      r.ret = r2.ret ∧ r.transport = r2.transport ∧ r.msg = r2.msg ∧
      wntr_midi_sysex_len r.state = wntr_midi_sysex_len r2.state ∧
      r.state.bytes (wntr_midi_sysex_len r.state) =
        r2.state.bytes (wntr_midi_sysex_len r2.state) := by
  obtain ⟨t1, msg1, s1, -, h1, -, -, -, -⟩ :=
    consume_sysex_message s.decode gs hacc hcap tail hend st
  obtain ⟨s2, h2, h3, h4⟩ := consume_sysex_agree _ _ st st2 t1 msg1 s1 h1
  exact ⟨_, _, wntr_midi_task_start s _ msg st hs t1 msg1 s1 h1,
    wntr_midi_task_start s _ msg2 st2 hs t1 msg1 s2 h2, rfl, rfl, rfl, h3.symm, h4⟩

/-- C12, amended, for a three-packet message, read once at power-on and
once from a state that an earlier message of 7 bytes `FF` has left. -/
theorem C12_reassembly_starts_afresh_witness :
    Packet.code ⟨4, 0xF0, 0x1B, 1⟩ = MIDI_CODE_INDEX_SYSEX_START_OR_CONTINUE ∧
    accepted [(0, ⟨4, 1, 2, 3⟩)] ∧
    2 + 3 * [((0 : Nat), (⟨4, 1, 2, 3⟩ : Packet))].length ≤ SYSEX_BUF_SIZE ∧
    ending (List.replicate 0 none ++ some ⟨6, 9, 0xF7, 0⟩ :: []) ∧
    ∃ r r2 : TaskResult,
      wntr_midi_task
        (some ⟨4, 0xF0, 0x1B, 1⟩ ::
          (gapped [(0, ⟨4, 1, 2, 3⟩)] ++ (List.replicate 0 none ++ some ⟨6, 9, 0xF7, 0⟩ :: [])))
        WntrMIDIMessage.zero SysexState.zero = Except.ok r ∧
      wntr_midi_task
        (some ⟨4, 0xF0, 0x1B, 1⟩ ::
          (gapped [(0, ⟨4, 1, 2, 3⟩)] ++ (List.replicate 0 none ++ some ⟨6, 9, 0xF7, 0⟩ :: [])))
        ⟨3, 4, 0, 0, 0⟩ ⟨fun _ => 0xFF, 7, [0, 1, 2, 3, 4, 5, 6]⟩ = Except.ok r2 ∧
      r.ret = r2.ret ∧ r.transport = r2.transport ∧ r.msg = r2.msg ∧
      wntr_midi_sysex_len r.state = wntr_midi_sysex_len r2.state ∧
      r.state.bytes (wntr_midi_sysex_len r.state) =
        r2.state.bytes (wntr_midi_sysex_len r2.state) :=
  have hacc : accepted [(0, ⟨4, 1, 2, 3⟩)] := by
    intro x hx
    rw [List.mem_singleton.1 hx]
    exact ⟨by decide, by decide⟩
  have hend : ending (List.replicate 0 none ++ some ⟨6, 9, 0xF7, 0⟩ :: []) :=
    Or.inl ⟨0, ⟨6, 9, 0xF7, 0⟩, [], by decide, by decide, rfl⟩
  ⟨by decide, hacc, by decide, hend,
    C12_reassembly_starts_afresh ⟨4, 0xF0, 0x1B, 1⟩ [(0, ⟨4, 1, 2, 3⟩)] _
      WntrMIDIMessage.zero ⟨3, 4, 0, 0, 0⟩ SysexState.zero
      ⟨fun _ => 0xFF, 7, [0, 1, 2, 3, 4, 5, 6]⟩ (by decide) hacc (by decide) hend⟩

/-- C13, as stated, fails for a message with 21 continuation packets,
each inserted after 99999 not-ready polls: the last byte of the 21st is
stored at index 64, outside `sysex_data_[64]`, and the run has no defined
reassembled length or bytes, with the not-ready polls or without them. -/
theorem C13_counterexample :
    consume_sysex
        (gapped (List.replicate 21 (99999, ⟨4, 1, 2, 3⟩)) ++
          (List.replicate 99999 none ++ some ⟨7, 7, 8, 0xF7⟩ :: []))
        (Packet.decode ⟨4, 0xF0, 0x1B, 1⟩) SysexState.zero =
      Except.error (Fault.out_of_bounds 64) ∧
    consume_sysex
        (deliver ((List.replicate 21 (99999, (⟨4, 1, 2, 3⟩ : Packet))).map Prod.snd) ++
          some ⟨7, 7, 8, 0xF7⟩ :: [])
        (Packet.decode ⟨4, 0xF0, 0x1B, 1⟩) SysexState.zero =
      Except.error (Fault.out_of_bounds 64) := by
  have hacc : accepted (List.replicate 21 (99999, ⟨4, 1, 2, 3⟩)) := by
    intro x hx
    rw [List.eq_of_mem_replicate hx]
    exact ⟨by decide, by decide⟩
  refine ⟨consume_sysex_too_long _ _ hacc (by decide) _ _, ?_⟩
  rw [deliver_eq_gapped]
  exact consume_sysex_too_long _ _ (accepted_strip _ hacc) (by decide) _ _

/-- C13, amended: the poll budget is per packet and its boundary is exact.
After the start packet (decoded in `msg`), let each packet of a run `gs`
of `k` start-or-continue packets that fit into the buffer
(`2 + 3 * k ≤ 64`, that is `k ≤ 20`) and the packet `e` that ends the
message arrive after at most `SYSEX_TIMEOUT - 1 = 99999` not-ready polls
of its own (however many in total).  Then `consume_sysex` returns exactly
what it returns for the same packets delivered without a not-ready poll:
same length, same buffer, same `*msg`, same rest of the transport.  If
instead `SYSEX_TIMEOUT = 100000` not-ready polls in a row come before a
packet `p`, of whatever code index, it returns with length 0 and `p` is
still on the transport. -/
theorem C13_poll_budget_per_packet (msg : WntrMIDIMessage) (gs : List (Nat × Packet))
    (g : Nat) (e p : Packet) (rest : Transport) (st : SysexState)
    (hacc : ∀ x ∈ gs, x.1 ≤ SYSEX_TIMEOUT - 1 ∧
      x.2.code = MIDI_CODE_INDEX_SYSEX_START_OR_CONTINUE)
    (hcap : 2 + 3 * gs.length ≤ SYSEX_BUF_SIZE)
    (hg : g ≤ SYSEX_TIMEOUT - 1)
    (he : e.code ≠ MIDI_CODE_INDEX_SYSEX_START_OR_CONTINUE) :
    SYSEX_TIMEOUT - 1 = 99999 ∧
    (∃ st1 : SysexState,
      consume_sysex (gapped gs ++ (List.replicate g none ++ some e :: rest)) msg st =
        Except.ok (rest, e.decode, st1) ∧
      consume_sysex (deliver (gs.map Prod.snd) ++ some e :: rest) msg st =
        Except.ok (rest, e.decode, st1)) ∧
    ∃ (msg1 : WntrMIDIMessage) (st0 : SysexState),
      consume_sysex (gapped gs ++ (List.replicate SYSEX_TIMEOUT none ++ some p :: rest))
        msg st = Except.ok (some p :: rest, msg1, st0) ∧
      wntr_midi_sysex_len st0 = 0 := by
  have hT : 0 < SYSEX_TIMEOUT := by decide
  have hacc2 : accepted gs := fun x hx => ⟨by have := (hacc x hx).1; omega, (hacc x hx).2⟩
  refine ⟨by decide, ⟨_, consume_sysex_close msg gs hacc2 hcap g (by omega) e he rest st, ?_⟩,
    _, _, consume_sysex_timeout msg gs hacc2 hcap (some p :: rest) st, rfl⟩
  have h := consume_sysex_close msg ((gs.map Prod.snd).map (fun p => (0, p)))
    (accepted_strip gs hacc2) (by rw [List.length_map, List.length_map]; exact hcap)
    0 hT e he rest st
  rw [map_snd_zero, List.length_map, List.length_map, ← deliver_eq_gapped] at h
  exact h

/-- C13, amended, for two continuation packets and an end-3-byte packet
that each arrive on the 100000th poll, 299997 not-ready polls in all, and
for 100000 not-ready polls before a continuation packet. -/
theorem C13_poll_budget_per_packet_witness :
    (∀ x ∈ [(99999, (⟨4, 1, 2, 3⟩ : Packet)), (99999, (⟨4, 4, 5, 6⟩ : Packet))],
      x.1 ≤ SYSEX_TIMEOUT - 1 ∧ x.2.code = MIDI_CODE_INDEX_SYSEX_START_OR_CONTINUE) ∧
    2 + 3 * [(99999, (⟨4, 1, 2, 3⟩ : Packet)), (99999, (⟨4, 4, 5, 6⟩ : Packet))].length ≤
      SYSEX_BUF_SIZE ∧
    99999 ≤ SYSEX_TIMEOUT - 1 ∧
    Packet.code ⟨7, 7, 8, 0xF7⟩ ≠ MIDI_CODE_INDEX_SYSEX_START_OR_CONTINUE ∧
    SYSEX_TIMEOUT - 1 = 99999 ∧
    (∃ st1 : SysexState,
      consume_sysex
          (gapped [(99999, ⟨4, 1, 2, 3⟩), (99999, ⟨4, 4, 5, 6⟩)] ++
            (List.replicate 99999 none ++ some ⟨7, 7, 8, 0xF7⟩ :: []))
          (Packet.decode ⟨4, 0xF0, 0x1B, 1⟩) SysexState.zero =
        Except.ok ([], Packet.decode ⟨7, 7, 8, 0xF7⟩, st1) ∧
      consume_sysex
          (deliver ([(99999, (⟨4, 1, 2, 3⟩ : Packet)), (99999, (⟨4, 4, 5, 6⟩ : Packet))].map
            Prod.snd) ++ some ⟨7, 7, 8, 0xF7⟩ :: [])
          (Packet.decode ⟨4, 0xF0, 0x1B, 1⟩) SysexState.zero =
        Except.ok ([], Packet.decode ⟨7, 7, 8, 0xF7⟩, st1)) ∧
    ∃ (msg1 : WntrMIDIMessage) (st0 : SysexState),
      consume_sysex
          (gapped [(99999, ⟨4, 1, 2, 3⟩), (99999, ⟨4, 4, 5, 6⟩)] ++
            (List.replicate SYSEX_TIMEOUT none ++ some ⟨4, 9, 10, 11⟩ :: []))
          (Packet.decode ⟨4, 0xF0, 0x1B, 1⟩) SysexState.zero =
        Except.ok (some ⟨4, 9, 10, 11⟩ :: [], msg1, st0) ∧
      wntr_midi_sysex_len st0 = 0 :=
  have hacc : ∀ x ∈ [(99999, (⟨4, 1, 2, 3⟩ : Packet)), (99999, (⟨4, 4, 5, 6⟩ : Packet))],
      x.1 ≤ SYSEX_TIMEOUT - 1 ∧ x.2.code = MIDI_CODE_INDEX_SYSEX_START_OR_CONTINUE := by
    decide
  ⟨hacc, by decide, by decide, by decide,
    C13_poll_budget_per_packet (Packet.decode ⟨4, 0xF0, 0x1B, 1⟩)
      [(99999, ⟨4, 1, 2, 3⟩), (99999, ⟨4, 4, 5, 6⟩)] 99999 ⟨7, 7, 8, 0xF7⟩ ⟨4, 9, 10, 11⟩ []
      SysexState.zero hacc (by decide) (by decide) (by decide)⟩

/-- C14: fragmenter termination and in-bounds reads.  For every payload
of length `L` with `L + 2` representable (at most `size_max`), the loop of
`wntr_midi_send_sysex` comes to an end, every iteration sending a packet.
At every loop head `1 ≤ remaining` and `head ≤ L + 2`, so that
`remaining = L + 2 - head` without wrap-around and the case
`remaining = 0` is not met.  Every call of `sysex_iterator_next` made by
the loop returns true, its increment of `*head` stays representable, and
when it reads `data` it reads at index `*head - 1`, which is below `L`. -/
theorem C14_fragmenter_terminates_in_bounds (data : List Nat) (size_max : Nat)
    (hrep : data.length + 2 ≤ size_max) :
    ∃ tr : SendTrace,
      wntr_midi_send_sysex_trace data data.length = some tr ∧
      wntr_midi_send_sysex data data.length = some tr.packets ∧
      tr.heads.length = tr.packets.length ∧
      (∀ h ∈ tr.heads,
        1 ≤ sysex_iterator_remaining data.length h ∧ h ≤ data.length + 2 ∧ h ≤ size_max) ∧
      ∀ c ∈ tr.calls,
        c.ret = true ∧ c.head + 1 ≤ size_max ∧
        c.index = sysex_iterator_next_index data.length c.head ∧
        ∀ i, c.index = some i → i = c.head - 1 ∧ i < data.length := by
  obtain ⟨tr, htr, hh, hc, hl⟩ :=
    send_loop_trace_safe data data.length (data.length + 2) 0 (by omega) (by omega)
  have hp := send_loop_trace_packets (data.length + 2) data data.length 0
  rw [htr] at hp
  refine ⟨tr, htr, hp.symm, hl, ?_, ?_⟩
  · intro h hmem
    have := hh h hmem
    unfold sysex_iterator_remaining
    omega
  · intro c hmem
    obtain ⟨h1, h2, h3⟩ := hc c hmem
    refine ⟨h2, by omega, h3, ?_⟩
    intro i hi
    exact sysex_iterator_next_index_lt data.length c.head i (h3 ▸ hi)

/-- C14 for a payload of five bytes on a machine with a 32-bit `size_t`. -/
theorem C14_fragmenter_terminates_in_bounds_witness :
    [0x01, 0x02, 0x03, 0x04, 0x05].length + 2 ≤ 2 ^ 32 - 1 ∧
    ∃ tr : SendTrace,
      wntr_midi_send_sysex_trace [0x01, 0x02, 0x03, 0x04, 0x05]
        [0x01, 0x02, 0x03, 0x04, 0x05].length = some tr ∧
      wntr_midi_send_sysex [0x01, 0x02, 0x03, 0x04, 0x05]
        [0x01, 0x02, 0x03, 0x04, 0x05].length = some tr.packets ∧
      tr.heads.length = tr.packets.length ∧
      (∀ h ∈ tr.heads,
        1 ≤ sysex_iterator_remaining [0x01, 0x02, 0x03, 0x04, 0x05].length h ∧
        h ≤ [0x01, 0x02, 0x03, 0x04, 0x05].length + 2 ∧ h ≤ 2 ^ 32 - 1) ∧
      ∀ c ∈ tr.calls,
        c.ret = true ∧ c.head + 1 ≤ 2 ^ 32 - 1 ∧
        c.index = sysex_iterator_next_index [0x01, 0x02, 0x03, 0x04, 0x05].length c.head ∧
        ∀ i, c.index = some i → i = c.head - 1 ∧ i < [0x01, 0x02, 0x03, 0x04, 0x05].length :=
  ⟨by decide,
    C14_fragmenter_terminates_in_bounds [0x01, 0x02, 0x03, 0x04, 0x05] (2 ^ 32 - 1)
      (by decide)⟩

/-- C15, as stated, fails for a start packet, 21 continuation packets and
an end packet: the reassembly is ended by an end packet, but before it is
read the last byte of the 21st continuation packet is stored at index 64,
outside `sysex_data_[64]`, and `wntr_midi_task` has no defined result, so
none that returns true. -/
theorem C15_counterexample :
    wntr_midi_task
        (some ⟨4, 0xF0, 0x1B, 1⟩ ::
          (gapped (List.replicate 21 (0, ⟨4, 1, 2, 3⟩)) ++
            (List.replicate 1 none ++ some ⟨0x27, 7, 8, 0xF7⟩ :: [])))
        WntrMIDIMessage.zero SysexState.zero = Except.error (Fault.out_of_bounds 64) ∧
    ¬ ∃ r : TaskResult,
      wntr_midi_task
          (some ⟨4, 0xF0, 0x1B, 1⟩ ::
            (gapped (List.replicate 21 (0, ⟨4, 1, 2, 3⟩)) ++
              (List.replicate 1 none ++ some ⟨0x27, 7, 8, 0xF7⟩ :: [])))
          WntrMIDIMessage.zero SysexState.zero = Except.ok r ∧
      r.ret = true := by
  have hacc : accepted (List.replicate 21 (0, ⟨4, 1, 2, 3⟩)) := by
    intro x hx
    rw [List.eq_of_mem_replicate hx]
    exact ⟨by decide, by decide⟩
  have h := wntr_midi_task_fault ⟨4, 0xF0, 0x1B, 1⟩ _ WntrMIDIMessage.zero SysexState.zero
    (by decide) _
    (consume_sysex_too_long _ _ hacc (by decide)
      (List.replicate 1 none ++ some ⟨0x27, 7, 8, 0xF7⟩ :: []) SysexState.zero)
  refine ⟨h, ?_⟩
  rintro ⟨r, h1, -⟩
  rw [h] at h1
  cases h1

/-- C15, amended: what the caller sees after a SysEx read.  Whenever the
first packet `s` read by `wntr_midi_task` has code index start-or-continue
and the message behind it fits into the buffer (a run `gs` of `k`
accepted start-or-continue packets with `2 + 3 * k ≤ 64`, that is
`k ≤ 20`), whatever ends it, the call returns true with `msg.code_index`
start-or-continue and `msg.midi_0 = msg.midi_1 = msg.midi_2 = 0`.  When
the reassembly is ended by a packet `e` (an end packet or a malformed
one), nothing of `e` but its cable nibble is left in `*msg`, and the
length is at least 2; when it is ended by the timeout, the same four
fields are returned and the length is 0: the length is what tells the two
apart. -/
theorem C15_what_the_caller_sees (s : Packet) (tail : Transport) (gs : List (Nat × Packet))
    (g : Nat) (e : Packet) (rest : Transport) (msg : WntrMIDIMessage) (st : SysexState)
    (hs : s.code = MIDI_CODE_INDEX_SYSEX_START_OR_CONTINUE) (hacc : accepted gs)
    (hcap : 2 + 3 * gs.length ≤ SYSEX_BUF_SIZE) (hend : ending tail)
    (hg : g < SYSEX_TIMEOUT) (he : e.code ≠ MIDI_CODE_INDEX_SYSEX_START_OR_CONTINUE) :
    (∃ r : TaskResult,
      wntr_midi_task (some s :: (gapped gs ++ tail)) msg st = Except.ok r ∧ r.ret = true ∧
      r.msg.code_index = MIDI_CODE_INDEX_SYSEX_START_OR_CONTINUE ∧
      r.msg.midi_0 = 0 ∧ r.msg.midi_1 = 0 ∧ r.msg.midi_2 = 0) ∧
    (∃ r : TaskResult,
      wntr_midi_task (some s :: (gapped gs ++ (List.replicate g none ++ some e :: rest)))
        msg st = Except.ok r ∧
      r.ret = true ∧ r.transport = rest ∧
      r.msg = ⟨e.b0 >>> 4 &&& 0xF, MIDI_CODE_INDEX_SYSEX_START_OR_CONTINUE, 0, 0, 0⟩ ∧
      2 ≤ wntr_midi_sysex_len r.state) ∧
    ∃ r : TaskResult,
      wntr_midi_task (some s :: (gapped gs ++ (List.replicate SYSEX_TIMEOUT none ++ rest)))
        msg st = Except.ok r ∧
      r.ret = true ∧ r.transport = rest ∧
      r.msg.code_index = MIDI_CODE_INDEX_SYSEX_START_OR_CONTINUE ∧
      r.msg.midi_0 = 0 ∧ r.msg.midi_1 = 0 ∧ r.msg.midi_2 = 0 ∧
      wntr_midi_sysex_len r.state = 0 := by
  refine ⟨?_, ?_, ?_⟩
  · obtain ⟨t1, msg1, s1, -, h1, -, -, -, -⟩ :=
      consume_sysex_message s.decode gs hacc hcap tail hend st
    exact ⟨_, wntr_midi_task_start s _ msg st hs t1 msg1 s1 h1, rfl, rfl, rfl, rfl, rfl⟩
  · have h1 := consume_sysex_close s.decode gs hacc hcap g hg e he rest st
    refine ⟨_, wntr_midi_task_start s _ msg st hs _ _ _ h1, rfl, rfl, rfl, ?_⟩
    show 2 ≤ 2 + 3 * gs.length + (closing_bytes e).length
    omega
  · have h := consume_sysex_timeout s.decode gs hacc hcap rest st
    exact ⟨_, wntr_midi_task_start s _ msg st hs _ _ _ h, rfl, rfl, rfl, rfl, rfl, rfl, rfl⟩

/-- C15, amended, for a start packet, one continuation packet, and then
either an end-3-byte packet on cable 2 after one not-ready poll, or the
timeout, or a transport that is used up. -/
theorem C15_what_the_caller_sees_witness :
    Packet.code ⟨4, 0xF0, 0x1B, 1⟩ = MIDI_CODE_INDEX_SYSEX_START_OR_CONTINUE ∧
    accepted [(0, ⟨4, 1, 2, 3⟩)] ∧
    2 + 3 * [((0 : Nat), (⟨4, 1, 2, 3⟩ : Packet))].length ≤ SYSEX_BUF_SIZE ∧
    ending (List.replicate 0 none) ∧ 1 < SYSEX_TIMEOUT ∧
    Packet.code ⟨0x27, 7, 8, 0xF7⟩ ≠ MIDI_CODE_INDEX_SYSEX_START_OR_CONTINUE ∧
    (∃ r : TaskResult,
      wntr_midi_task
        (some ⟨4, 0xF0, 0x1B, 1⟩ :: (gapped [(0, ⟨4, 1, 2, 3⟩)] ++ List.replicate 0 none))
        WntrMIDIMessage.zero SysexState.zero = Except.ok r ∧
      r.ret = true ∧ r.msg.code_index = MIDI_CODE_INDEX_SYSEX_START_OR_CONTINUE ∧
      r.msg.midi_0 = 0 ∧ r.msg.midi_1 = 0 ∧ r.msg.midi_2 = 0) ∧
    (∃ r : TaskResult,
      wntr_midi_task
        (some ⟨4, 0xF0, 0x1B, 1⟩ ::
          (gapped [(0, ⟨4, 1, 2, 3⟩)] ++
            (List.replicate 1 none ++ some ⟨0x27, 7, 8, 0xF7⟩ :: [])))
        WntrMIDIMessage.zero SysexState.zero = Except.ok r ∧
      r.ret = true ∧ r.transport = [] ∧
      r.msg = ⟨(⟨0x27, 7, 8, 0xF7⟩ : Packet).b0 >>> 4 &&& 0xF,
        MIDI_CODE_INDEX_SYSEX_START_OR_CONTINUE, 0, 0, 0⟩ ∧
      2 ≤ wntr_midi_sysex_len r.state) ∧
    ∃ r : TaskResult,
      wntr_midi_task
        (some ⟨4, 0xF0, 0x1B, 1⟩ ::
          (gapped [(0, ⟨4, 1, 2, 3⟩)] ++ (List.replicate SYSEX_TIMEOUT none ++ [])))
        WntrMIDIMessage.zero SysexState.zero = Except.ok r ∧
      r.ret = true ∧ r.transport = [] ∧
      r.msg.code_index = MIDI_CODE_INDEX_SYSEX_START_OR_CONTINUE ∧
      r.msg.midi_0 = 0 ∧ r.msg.midi_1 = 0 ∧ r.msg.midi_2 = 0 ∧
      wntr_midi_sysex_len r.state = 0 :=
  have hacc : accepted [(0, ⟨4, 1, 2, 3⟩)] := by
    intro x hx
    rw [List.mem_singleton.1 hx]
    exact ⟨by decide, by decide⟩
  have hend : ending (List.replicate 0 none) := Or.inr (Or.inr ⟨0, by decide, rfl⟩)
  ⟨by decide, hacc, by decide, hend, by decide, by decide,
    C15_what_the_caller_sees ⟨4, 0xF0, 0x1B, 1⟩ (List.replicate 0 none) [(0, ⟨4, 1, 2, 3⟩)] 1
      ⟨0x27, 7, 8, 0xF7⟩ [] WntrMIDIMessage.zero SysexState.zero (by decide) hacc (by decide)
      hend (by decide) (by decide)⟩

/-- C16: wire form of the packets sent.  Every packet sent by
`wntr_midi_send_sysex` has byte 0 equal to its code index, which is one of
the four SysEx code indices and below 16, so that the cable nibble is 0;
byte 3 of an end-2-byte packet and bytes 2 and 3 of an end-1-byte packet
are 0. -/
theorem C16_wire_form (data : List Nat) :
    ∃ pkts : List Packet,
      wntr_midi_send_sysex data data.length = some pkts ∧
      ∀ p ∈ pkts,
        p.b0 = p.code ∧ p.b0 >>> 4 &&& 0xF = 0 ∧ p.b0 < 16 ∧
        (p.code = MIDI_CODE_INDEX_SYSEX_START_OR_CONTINUE ∨
          p.code = MIDI_CODE_INDEX_SYSEX_END_ONE_BYTE ∨
          p.code = MIDI_CODE_INDEX_SYSEX_END_TWO_BYTE ∨
          p.code = MIDI_CODE_INDEX_SYSEX_END_THREE_BYTE) ∧
        (p.code = MIDI_CODE_INDEX_SYSEX_END_TWO_BYTE → p.b3 = 0) ∧
        (p.code = MIDI_CODE_INDEX_SYSEX_END_ONE_BYTE → p.b2 = 0 ∧ p.b3 = 0) := by
  refine ⟨_, wntr_midi_send_sysex_eq data, ?_⟩
  intro p hp
  obtain ⟨h1, h2, h3⟩ := packetize_wire _ p hp
  have hlt : p.b0 < 16 := by
    rcases h1 with h | h | h | h <;> rw [h] <;> decide
  have hcode : p.b0 = p.code := by
    rw [code_eq_mod, Nat.mod_eq_of_lt hlt]
  have hcable : p.b0 >>> 4 &&& 0xF = 0 := by
    rcases h1 with h | h | h | h <;> rw [h] <;> decide
  rw [← hcode]
  exact ⟨rfl, hcable, hlt, h1, h2, h3⟩

end Winter
